import Mathlib

/-!
# PhotoBooth: upload / gallery handlers and the capture controller

A shallow embedding of `server.js` (the Express handlers `GET /api/photos`,
`POST /api/upload-base64`, `DELETE /api/photos/:filename`) and of the capture
flow of `client.js` (`startCamera`, `doCapture`, `uploadBase64`,
`refreshGallery`, the button handlers).

Conventions of the embedding.

* A JavaScript string is the list of its UTF-16 code units, each a `Nat`
  below 65536; an unpaired surrogate is an ordinary element of the list.
  `js "..."` is the JavaScript string of a literal.
* A byte is a `Nat` below 256, a `Buffer` is a `List Nat`.
* `UPLOAD_DIR` is `path.join(__dirname, 'uploads')`, hence an absolute,
  normalised path; absolute paths are lists of segments from the root.
* The Node.js runtime functions the handlers call (`path.basename`,
  `path.join`, `Buffer.from(_, 'base64')`, `encodeURIComponent`, `fs.*`,
  `Array.prototype.sort`) are modelled by their POSIX behaviour.
-/

namespace PhotoBooth

/-! ## JavaScript values and strings -/

/-- A JavaScript string: its UTF-16 code units. -/
abbrev JSString := List Nat

/-- The UTF-16 code units of a character. -/
def utf16Units (c : Char) : List Nat :=
  if c.toNat < 0x10000 then [c.toNat]
  else [0xD800 + (c.toNat - 0x10000) / 1024, 0xDC00 + (c.toNat - 0x10000) % 1024]

/-- The JavaScript string of a literal. -/
def js (s : String) : JSString :=
  s.toList.flatMap utf16Units

/-- A value found in a parsed JSON request body (or `undefined` for an absent
field).  Numbers are kept as integers: the handlers only test a number for
truthiness and for `typeof`.  Arrays and objects are both `object`. -/
inductive JSValue where
  | undefined
  | null
  | bool (b : Bool)
  | number (n : Int)
  | string (s : JSString)
  | object
  deriving DecidableEq, Repr

/-- The JavaScript truthiness of a value (`ToBoolean`). -/
def JSValue.truthy : JSValue → Bool
  | .undefined => false
  | .null => false
  | .bool b => b
  | .number n => n != 0
  | .string s => !s.isEmpty
  | .object => true

/-- An ASCII letter or digit: `[A-Za-z0-9]`. -/
def isAsciiAlnum (u : Nat) : Bool :=
  (65 ≤ u && u ≤ 90) || (97 ≤ u && u ≤ 122) || (48 ≤ u && u ≤ 57)

/-- The regular-expression class `\w`, that is `[A-Za-z0-9_]`. -/
def isWordChar (u : Nat) : Bool :=
  isAsciiAlnum u || u == 95

/-- The ECMAScript line terminators LF, CR, LS and PS: what `.` does not match. -/
def isLineTerminator (u : Nat) : Bool :=
  u == 0x0A || u == 0x0D || u == 0x2028 || u == 0x2029

/-- A high (leading) surrogate code unit. -/
def isLead (u : Nat) : Bool :=
  0xD800 ≤ u && u ≤ 0xDBFF

/-- A low (trailing) surrogate code unit. -/
def isTrail (u : Nat) : Bool :=
  0xDC00 ≤ u && u ≤ 0xDFFF

/-- Matching a literal at the start of a string: the rest of the string when
the string starts with the literal. -/
def dropLit : JSString → JSString → Option JSString
  | [], s => some s
  | _ :: _, [] => none
  | c :: cs, d :: ds => if c = d then dropLit cs ds else none

/-- The match `image.match(/^data:(image\/\w+);base64,(.+)$/)` of line 68,
giving the two capture groups.  The pieces are matched in the order of the
pattern: the literal `data:image/`, a greedy run of `\w` (it must stop at the
`;`, so no shorter run can match), the literal `;base64,`, and `.+` up to the
end of the input (no `m` flag: `$` is the end of the string; no `u` flag: the
pattern is matched code unit by code unit). -/
def matchDataUri (image : JSString) : Option (JSString × JSString) :=
  match dropLit (js "data:image/") image with
  | none => none
  | some r1 =>
    let w := r1.takeWhile isWordChar
    if w.isEmpty then none
    else
      match dropLit (js ";base64,") (r1.dropWhile isWordChar) with
      | none => none
      | some d =>
        if !d.isEmpty && d.all (fun c => !isLineTerminator c) then
          some (js "image/" ++ w, d)
        else none

/-- The method `String.prototype.split('/')`: the pieces between slashes
(code unit 47). -/
def splitSlash : JSString → List JSString
  | [] => [[]]
  | c :: cs =>
    match splitSlash cs with
    | [] => [[]]
    | p :: ps => if c = 47 then [] :: p :: ps else (c :: p) :: ps

/-- The method `String.prototype.slice(2, 8)` on a string. -/
def slice28 (s : JSString) : JSString :=
  (s.drop 2).take 6

/-- String conversion of a non-negative integer below `10^21`, as in the
template literal of line 75: its decimal digits. -/
def decimal (n : Nat) : JSString :=
  (Nat.toDigits 10 n).map Char.toNat

/-! ## Base64 -/

/-- The base64 alphabet of RFC 4648: the digit (a code unit) for a sextet. -/
def b64Char (v : Nat) : Nat :=
  if v < 26 then 65 + v
  else if v < 52 then 97 + (v - 26)
  else if v < 62 then 48 + (v - 52)
  else if v = 62 then 43
  else 47

/-- The standard padded base64 encoding of a byte sequence
(`buffer.toString('base64')`, and what `canvas.toDataURL` emits); the padding
`=` is code unit 61. -/
def base64Encode : List Nat → JSString
  | x :: y :: z :: rest =>
    b64Char (x / 4) :: b64Char (x % 4 * 16 + y / 16) :: b64Char (y % 16 * 4 + z / 64)
      :: b64Char (z % 64) :: base64Encode rest
  | [x, y] => [b64Char (x / 4), b64Char (x % 4 * 16 + y / 16), b64Char (y % 16 * 4), 61]
  | [x] => [b64Char (x / 4), b64Char (x % 4 * 16), 61, 61]
  | [] => []

/-- The byte Node's base64 decoder looks at for a code unit: its low eight
bits (the decoder reads a two-byte string through a cast to `uint8_t`). -/
def lowByte (u : Nat) : Nat :=
  u % 256

/-- The sextet a code unit stands for in Node's base64 decoder, which looks
at the low byte only and accepts both the standard and the URL-safe alphabet
(`+` and `-` are 62, `/` and `_` are 63); `none` for any other byte. -/
def unbase64 (u : Nat) : Option Nat :=
  let n := lowByte u
  if 65 ≤ n ∧ n ≤ 90 then some (n - 65)
  else if 97 ≤ n ∧ n ≤ 122 then some (n - 97 + 26)
  else if 48 ≤ n ∧ n ≤ 57 then some (n - 48 + 52)
  else if n = 43 ∨ n = 45 then some 62
  else if n = 47 ∨ n = 95 then some 63
  else none

/-- Bytes of a run of sextets: three bytes per full group of four, and one or
two bytes for a final group of two or three sextets (a single left-over sextet
gives nothing). -/
def sextetsToBytes : List Nat → List Nat
  | a :: b :: c :: d :: rest =>
    (a * 4 + b / 16) :: (b % 16 * 16 + c / 4) :: (c % 4 * 64 + d) :: sextetsToBytes rest
  | [a, b, c] => [a * 4 + b / 16, b % 16 * 16 + c / 4]
  | [a, b] => [a * 4 + b / 16]
  | _ => []

/-- The sextets Node's base64 decoder reads from a string: it stops at the
first code unit whose low byte is `=` (61) and skips every code unit whose low
byte is outside the alphabet. -/
def sextetsOf (data : JSString) : List Nat :=
  (data.takeWhile (fun u => lowByte u != 61)).filterMap unbase64

/-- The call `Buffer.from(data, 'base64')` of line 73.  Node's decoder never
throws: it decodes the sextets it reads, whatever the string. -/
def bufferFromBase64 (data : JSString) : List Nat :=
  sextetsToBytes (sextetsOf data)

/-! ## Paths (`path.posix`) and `encodeURIComponent` -/

/-- An absolute, normalised path: its segments from the root. -/
abbrev Path := List JSString

/-- The function `path.basename`: trailing slashes are dropped, then what
follows the last remaining slash is returned (the empty string when the
argument is empty or consists of slashes only). -/
def basename (p : JSString) : JSString :=
  ((p.reverse.dropWhile (fun c => c == 47)).takeWhile (fun c => c != 47)).reverse

/-- One step of `path.normalize`: an empty segment or `.` is dropped, `..`
removes the segment before it (nothing above the root), any other segment is
appended.  The dot is code unit 46. -/
def joinSeg (p : Path) (seg : JSString) : Path :=
  if seg = [] ∨ seg = [46] then p
  else if seg = [46, 46] then p.dropLast
  else p ++ [seg]

/-- The call `path.join(dir, name)` for a normalised absolute `dir`: the
segments of `name` are resolved one after the other starting from `dir`. -/
def pathJoin (dir : Path) (name : JSString) : Path :=
  (splitSlash name).foldl joinSeg dir

/-- The UTF-8 encoding of a code point. -/
def utf8Bytes (n : Nat) : List Nat :=
  if n < 0x80 then [n]
  else if n < 0x800 then [0xC0 + n / 64, 0x80 + n % 64]
  else if n < 0x10000 then [0xE0 + n / 4096, 0x80 + n / 64 % 64, 0x80 + n % 64]
  else [0xF0 + n / 262144, 0x80 + n / 4096 % 64, 0x80 + n / 64 % 64, 0x80 + n % 64]

/-- An upper-case hexadecimal digit, as a code unit. -/
def hexDigit (v : Nat) : Nat :=
  if v < 10 then 48 + v else 55 + v

/-- The escape `%XX` of each byte of a sequence. -/
def pctEncode (bytes : List Nat) : JSString :=
  bytes.flatMap (fun b => [37, hexDigit (b / 16), hexDigit (b % 16)])

/-- The characters `encodeURIComponent` leaves alone:
`A-Z a-z 0-9 - _ . ! ~ * ' ( )`. -/
def isUriUnreserved (u : Nat) : Bool :=
  isAsciiAlnum u || u == 45 || u == 95 || u == 46 || u == 33 || u == 126 || u == 42
    || u == 39 || u == 40 || u == 41

/-- What `encodeURIComponent` writes for a code unit that is not a surrogate. -/
def encodeUnit (u : Nat) : JSString :=
  if isUriUnreserved u then [u] else pctEncode (utf8Bytes u)

/-- The function `encodeURIComponent`: `none` when it throws a `URIError`,
which it does on a surrogate that is not part of a pair. -/
def encodeURIComponent : JSString → Option JSString
  | [] => some []
  | [u] => if isLead u || isTrail u then none else some (encodeUnit u)
  | u :: v :: rest =>
    if isLead u then
      if isTrail v then
        (encodeURIComponent rest).map
          (fun r => pctEncode (utf8Bytes (0x10000 + (u - 0xD800) * 1024 + (v - 0xDC00))) ++ r)
      else none
    else if isTrail u then none
    else (encodeURIComponent (v :: rest)).map (fun r => encodeUnit u ++ r)

/-- The public URL of a stored file: the mount point and the encoded name;
`none` when `encodeURIComponent` throws. -/
def photoUrl (name : JSString) : Option JSString :=
  (encodeURIComponent name).map (fun e => js "/uploads/" ++ e)

/-- The string Node hands to the operating system for a JavaScript string,
and gets back from it: the string is converted to UTF-8, every surrogate that
is not part of a pair becoming U+FFFD (`String.prototype.toWellFormed`). -/
def toWellFormed : JSString → JSString
  | [] => []
  | [u] => if isLead u || isTrail u then [0xFFFD] else [u]
  | u :: v :: rest =>
    if isLead u && isTrail v then u :: v :: toWellFormed rest
    else if isLead u || isTrail u then 0xFFFD :: toWellFormed (v :: rest)
    else u :: toWellFormed (v :: rest)

/-- The path the operating system sees for a path of the program. -/
def osPath (p : Path) : Path :=
  p.map toWellFormed

/-! ## The file system -/

/-- A node of the file system: a regular file with its content and creation
time, or a directory. -/
inductive Node where
  | file (bytes : List Nat) (birthtimeMs : Int)
  | dir (size : Nat) (birthtimeMs : Int)
  deriving DecidableEq, Repr

/-- A file-system state: the nodes by absolute path as the operating system
names them (the first entry for a path counts; the root always exists), and
the paths on which a write or an unlink is refused by the operating system
(permissions, I/O errors). -/
structure FS where
  nodes : List (Path × Node)
  denied : List Path
  deriving DecidableEq, Repr

/-- What `fs.stat` reports and the handlers read. -/
structure Stat where
  size : Nat
  birthtimeMs : Int
  deriving DecidableEq, Repr

namespace FS

/-- The node at a path, if any. -/
def node (fs : FS) (p : Path) : Option Node :=
  if osPath p = [] then some (.dir 4096 0) else fs.nodes.lookup (osPath p)

/-- Whether a path names a directory. -/
def isDir (fs : FS) (p : Path) : Bool :=
  match fs.node p with
  | some (.dir _ _) => true
  | _ => false

/-- The call `fs.existsSync(p)`. -/
def existsSync (fs : FS) (p : Path) : Bool :=
  (fs.node p).isSome

/-- The call `fsProm.stat(p)`: `none` when it rejects (`ENOENT`). -/
def stat (fs : FS) (p : Path) : Option Stat :=
  match fs.node p with
  | some (.file bytes t) => some ⟨bytes.length, t⟩
  | some (.dir size t) => some ⟨size, t⟩
  | none => none

/-- The name under which a path is listed in directory `dir`, when it is a
direct child of `dir`: Node decodes the name the operating system gives, so
the string it returns has no unpaired surrogate. -/
def childName (dir p : Path) : Option JSString :=
  if p ≠ [] ∧ p.dropLast = osPath dir then p.getLast?.map toWellFormed else none

/-- The call `fsProm.readdir(dir)`: the names of the entries of `dir` in the
order the file system enumerates them, `none` when `dir` is not a directory. -/
def readdir (fs : FS) (dir : Path) : Option (List JSString) :=
  if fs.isDir dir then some (fs.nodes.filterMap (fun e => childName dir e.1)) else none

/-- The call `fsProm.unlink(p)`: removes a regular file; `none` when it
rejects (no such file, a directory, or refused by the operating system). -/
def unlink (fs : FS) (p : Path) : Option FS :=
  if osPath p ∈ fs.denied then none
  else
    match fs.node p with
    | some (.file _ _) => some { fs with nodes := fs.nodes.filter (fun e => e.1 != osPath p) }
    | _ => none

/-- The call `fsProm.writeFile(p, bytes)` at file-system time `t`: replaces
the content of an existing regular file (its creation time stays), or creates
the file in an existing directory; `none` when it rejects (the path is a
directory, the parent is not a directory, or refused by the operating system). -/
def writeFile (fs : FS) (p : Path) (bytes : List Nat) (t : Int) : Option FS :=
  if osPath p ∈ fs.denied then none
  else
    match fs.node p with
    | some (.dir _ _) => none
    | some (.file _ t0) =>
      some { fs with
        nodes := fs.nodes.map (fun e => if e.1 = osPath p then (osPath p, .file bytes t0) else e) }
    | none =>
      if fs.isDir p.dropLast then
        some { fs with nodes := fs.nodes ++ [(osPath p, .file bytes t)] }
      else none

/-- The content of the regular file at a path. -/
def readFile (fs : FS) (p : Path) : Option (List Nat) :=
  match fs.node p with
  | some (.file bytes _) => some bytes
  | _ => none

end FS

/-! ## HTTP responses -/

/-- One element of the array `GET /api/photos` answers. -/
structure PhotoEntry where
  filename : JSString
  url : JSString
  size : Nat
  createdAt : Int
  deriving DecidableEq, Repr

/-- The body of a response. -/
inductive Body where
  | error (message : JSString)
  | uploaded (filename url : JSString)
  | photos (list : List PhotoEntry)
  | empty
  deriving DecidableEq, Repr

/-- A response: status code and body. -/
structure Response where
  status : Nat
  body : Body
  deriving DecidableEq, Repr

/-! ## `POST /api/upload-base64` (lines 63-84) -/

/-- The parsed request body: the fields the handler destructures. -/
structure UploadBody where
  image : JSValue
  filename : JSValue
  deriving DecidableEq, Repr

/-- What the handler reads from its environment: `Date.now()`, the string
`Math.random().toString(36)`, and the file-system clock at the write. -/
structure UploadEnv where
  now : Nat
  random36 : JSString
  fsTime : Int
  deriving DecidableEq, Repr

/-- The extension of line 71: `matches[1].split('/')[1] || 'png'`. -/
def extOf (mediaType : JSString) : JSString :=
  match (splitSlash mediaType).get? 1 with
  | some e => if e.isEmpty then js "png" else e
  | none => js "png"

/-- The generated name of line 75:
`Date.now() + '-' + Math.random().toString(36).slice(2,8) + '.' + ext`
(the hyphen is code unit 45, the dot 46). -/
def generatedName (env : UploadEnv) (ext : JSString) : JSString :=
  decimal env.now ++ [45] ++ slice28 env.random36 ++ [46] ++ ext

/-- The name of line 75: `(filename && path.basename(filename)) || generated`.
`none` when `path.basename` throws a `TypeError` (a truthy `filename` that is
not a string). -/
def safeNameOf (filename : JSValue) (env : UploadEnv) (ext : JSString) : Option JSString :=
  match filename with
  | .string s =>
    if s.isEmpty then some (generatedName env ext)
    else if (basename s).isEmpty then some (generatedName env ext)
    else some (basename s)
  | v => if v.truthy then none else some (generatedName env ext)

/-- The answer of the `catch` block of the upload handler. -/
def uploadFailed : Response :=
  ⟨500, .error (js "Gagal menyimpan gambar")⟩

/-- Lines 78-79, reached with the name and the buffer: the file is written,
then the answer is built; a rejected write, or a `URIError` of
`encodeURIComponent` after the write, is answered by the `catch` block. -/
def storeAndAnswer (dir : Path) (env : UploadEnv) (safeName : JSString) (buffer : List Nat)
    (fs : FS) : Response × FS :=
  match fs.writeFile (pathJoin dir safeName) buffer env.fsTime with
  | none => (uploadFailed, fs)
  | some fs1 =>
    match photoUrl safeName with
    | none => (uploadFailed, fs1)
    | some url => (⟨200, .uploaded safeName url⟩, fs1)

/-- The handler of `POST /api/upload-base64`: the response and the file
system it leaves. -/
def uploadBase64 (dir : Path) (env : UploadEnv) (body : UploadBody) (fs : FS) : Response × FS :=
  match body.image with
  | .string image =>
    if image.isEmpty then (⟨400, .error (js "Image data missing")⟩, fs)
    else
      match matchDataUri image with
      | none => (⟨400, .error (js "Invalid image data")⟩, fs)
      | some (mediaType, data) =>
        let ext := extOf mediaType
        let buffer := bufferFromBase64 data
        match safeNameOf body.filename env ext with
        | none => (uploadFailed, fs)
        | some safeName => storeAndAnswer dir env safeName buffer fs
  | _ => (⟨400, .error (js "Image data missing")⟩, fs)

/-! ## `DELETE /api/photos/:filename` (lines 87-98) -/

/-- The path the delete handler checks and unlinks (lines 89-90). -/
def deleteTarget (dir : Path) (param : JSString) : Path :=
  pathJoin dir (basename param)

/-- The handler of `DELETE /api/photos/:filename`. -/
def deletePhoto (dir : Path) (param : JSString) (fs : FS) : Response × FS :=
  let target := deleteTarget dir param
  if !fs.existsSync target then (⟨404, .error (js "File not found")⟩, fs)
  else
    match fs.unlink target with
    | none => (⟨500, .error (js "Gagal menghapus file")⟩, fs)
    | some fs1 => (⟨204, .empty⟩, fs1)

/-! ## `GET /api/photos` (lines 36-54) -/

/-- The `Promise.all` of lines 39-47: every enumerated name is stat-ed and
mapped to its entry; the whole promise rejects (`none`) as soon as one
callback rejects, because `stat` rejects or `encodeURIComponent` throws. -/
def statAll (dir : Path) (fsStat : FS) : List JSString → Option (List PhotoEntry)
  | [] => some []
  | f :: rest =>
    match fsStat.stat (pathJoin dir f), photoUrl f, statAll dir fsStat rest with
    | some st, some url, some es => some (⟨f, url, st.size, st.birthtimeMs⟩ :: es)
    | _, _, _ => none

/-- The comparison of line 48, `new Date(b.createdAt) - new Date(a.createdAt)`,
read as "`a` may stay before `b`": the difference is not positive. -/
def newestFirst (a b : PhotoEntry) : Prop :=
  b.createdAt - a.createdAt ≤ 0

instance : DecidableRel newestFirst :=
  fun a b => inferInstanceAs (Decidable (b.createdAt - a.createdAt ≤ 0))

/-- The call `list.sort(...)` of line 48.  `Array.prototype.sort` is a stable
sort; with a consistent comparison its result is the one a stable insertion
sort computes. -/
def sortNewestFirst (list : List PhotoEntry) : List PhotoEntry :=
  list.insertionSort newestFirst

/-- The handler of `GET /api/photos`.  `fs` is the file system when the
directory is enumerated, `fsStat` the file system when the entries are
stat-ed (the same state unless the store changes in between). -/
def getPhotos (dir : Path) (fs fsStat : FS) : Response :=
  match fs.readdir dir with
  | none => ⟨500, .error (js "Gagal membaca folder uploads")⟩
  | some files =>
    match statAll dir fsStat files with
    | none => ⟨500, .error (js "Gagal membaca folder uploads")⟩
    | some list => ⟨200, .photos (sortNewestFirst list)⟩

/-! ## The capture controller of `client.js`

The page is an event loop: a handler runs until its next `await`, and the
settling of the awaited promise is a later event.  A state records the
variables of the script and of the DOM the handlers read and write, where the
in-flight `doCapture` (if any) is suspended, and the log of what the page did
to the outside world. -/

/-- The camera selection preference `facing`. -/
inductive Facing where
  | user
  | environment
  deriving DecidableEq, Repr

/-- The `await` at which the in-flight `doCapture` is suspended. -/
inductive Stage where
  /-- Line 21, inside the `startCamera` of line 47: `getUserMedia` is pending. -/
  | awaitGetUserMedia
  /-- Line 23, inside the `startCamera` of line 47: `video.play()` is pending. -/
  | awaitPlay
  /-- Line 50: the countdown shows `cur` and its 850 ms timer is pending. -/
  | countdown (cur : Nat)
  /-- Line 63: the `fetch` of `uploadBase64` is pending. -/
  | awaitUpload
  /-- Line 64: the `fetch` of `refreshGallery` is pending. -/
  | awaitRefresh
  deriving DecidableEq, Repr

/-- How the request of `uploadBase64` ends: a success response, a response
that is not `ok` (with the `error` of its body, if it has one), or an error
caught by line 103 (a rejected `fetch`, an unreadable body), with the text
`err.message || err` that the alert shows. -/
inductive UploadOutcome where
  | ok
  | httpError (error : Option JSString)
  | networkError (message : JSString)
  deriving DecidableEq, Repr

/-- How the things a capture awaits end: whether `getUserMedia` is granted,
whether `video.play()` succeeds, how the upload request ends, and whether the
gallery request gives a usable answer. -/
structure Outcomes where
  cameraGranted : Bool
  playOk : Bool
  upload : UploadOutcome
  refreshOk : Bool
  deriving DecidableEq, Repr

/-- What the page does to the outside world. -/
inductive Action where
  /-- The call `navigator.mediaDevices.getUserMedia` with a facing mode. -/
  | getUserMedia (facing : Facing)
  /-- The call `alert(message)`. -/
  | alert (message : JSString)
  /-- The countdown overlay shows a digit. -/
  | showDigit (n : Nat)
  /-- The countdown overlay is hidden. -/
  | hideOverlay
  /-- Lines 52-62: the video frame is drawn on a `w` x `h` canvas and turned
  into a data URL; `live` tells whether `stream` was set at that moment. -/
  | snapshot (w h : Nat) (live : Bool)
  /-- Line 93: the data URL is posted to `/api/upload-base64`. -/
  | postUpload
  /-- Line 112: `GET /api/photos`. -/
  | fetchPhotos
  /-- Line 115: the gallery is rendered from the answer. -/
  | renderGallery
  /-- Line 118: the gallery shows the load-failure placeholder. -/
  | galleryUnavailable
  deriving DecidableEq, Repr

/-- The state of the page. -/
structure Client where
  /-- Whether `stream` is set (the camera is live). -/
  stream : Bool
  facing : Facing
  /-- The property `timerToggle.checked`. -/
  timerChecked : Bool
  /-- The properties `video.videoWidth` and `video.videoHeight`. -/
  videoWidth : Nat
  videoHeight : Nat
  /-- Whether `canvas.getContext('2d')` gives a context (it gives `null` when
  the canvas is bound to another context type). -/
  contextAvailable : Bool
  /-- Whether the page has a `.gallery-grid` element. -/
  hasGallery : Bool
  /-- The property `captureBtn.disabled`: the busy guard. -/
  captureDisabled : Bool
  /-- The in-flight `doCapture`, if any. -/
  capture : Option Stage
  /-- Calls of `startCamera` from the start button or the flip timer whose
  `getUserMedia` is pending. -/
  otherStarts : Nat
  /-- Pending `setTimeout(startCamera, 250)` timers of the flip handler. -/
  flipTimers : Nat
  log : List Action
  deriving DecidableEq, Repr

/-- An event of the page: a user action or the settling of something awaited. -/
inductive Event where
  /-- A click on the capture button (not dispatched while it is disabled). -/
  | clickCapture
  /-- The `getUserMedia` awaited by the capture settles. -/
  | getUserMediaSettled (granted : Bool)
  /-- The `video.play()` awaited by the capture settles. -/
  | playSettled (ok : Bool)
  /-- The 850 ms timer of the countdown fires. -/
  | tick
  /-- The request of `uploadBase64` ends. -/
  | uploadSettled (o : UploadOutcome)
  /-- The request of `refreshGallery` ends: a usable answer or not. -/
  | refreshSettled (ok : Bool)
  /-- A click on the start/stop button. -/
  | clickStart
  /-- The `getUserMedia` of a `startCamera` not awaited by a capture settles. -/
  | otherStartSettled (granted : Bool)
  /-- The flip toggle changes. -/
  | flipChange (checked : Bool)
  /-- A 250 ms timer of the flip handler fires. -/
  | flipTimer
  /-- The user toggles the countdown checkbox. -/
  | setTimer (checked : Bool)
  /-- The video element learns or loses its frame size. -/
  | videoResized (w h : Nat)
  deriving DecidableEq, Repr

/-- The message of `startCamera` when the camera cannot be used (line 30). -/
def cameraAlert : JSString :=
  js "Gagal mengakses kamera — periksa izin/perangkat."

/-- The message of `uploadBase64` when the upload fails (lines 100 and 105). -/
def uploadAlert (o : UploadOutcome) : Option JSString :=
  match o with
  | .ok => none
  | .httpError (some e) =>
    some (js "Gagal mengunggah foto: " ++ (if e.isEmpty then js "Upload failed" else e))
  | .httpError none => some (js "Gagal mengunggah foto: " ++ js "Upload failed")
  | .networkError m => some (js "Gagal mengunggah foto: " ++ m)

namespace Client

/-- Appends actions to the log. -/
def emit (c : Client) (as : List Action) : Client :=
  { c with log := c.log ++ as }

/-- The callback of `.finally` (line 193), run when `doCapture` settles,
fulfilled or rejected. -/
def finish (c : Client) : Client :=
  { c with capture := none, captureDisabled := false }

/-- The function `stopCamera` (lines 34-44). -/
def stopCamera (c : Client) : Client :=
  { c with stream := false }

/-- A call of `startCamera` that nobody awaits (start button, flip timer):
nothing when the camera is live, else `getUserMedia` is requested. -/
def startCameraDetached (c : Client) : Client :=
  if c.stream then c
  else { c with otherStarts := c.otherStarts + 1, log := c.log ++ [.getUserMedia c.facing] }

/-- Lines 52-63 of `doCapture`, up to the `fetch` of `uploadBase64`: the
frame size with its fall-backs (`1280`, and `Math.round(w * 9 / 16)`), the
drawing of the frame and the hand-off of the data URL.  When the canvas gives
no context, `ctx.drawImage` throws and `doCapture` rejects. -/
def snapshotAndUpload (c : Client) : Client :=
  let w := if c.videoWidth = 0 then 1280 else c.videoWidth
  let h := if c.videoHeight = 0 then (9 * w + 8) / 16 else c.videoHeight
  if c.contextAvailable then
    { c with log := c.log ++ [.snapshot w h c.stream, .postUpload], capture := some .awaitUpload }
  else finish c

/-- Lines 49-50 of `doCapture`, reached once line 47 is done: the countdown
is started when the checkbox is checked, else the frame is taken at once. -/
def afterCamera (c : Client) : Client :=
  if c.timerChecked then
    { c with log := c.log ++ [.showDigit 3], capture := some (.countdown 3) }
  else snapshotAndUpload c

/-- Line 64 of `doCapture`: `refreshGallery` returns at once without a
gallery element, else it requests the list. -/
def startRefresh (c : Client) : Client :=
  if c.hasGallery then
    { c with log := c.log ++ [.fetchPhotos], capture := some .awaitRefresh }
  else finish c

/-- The reaction of the page to one event.  An event that cannot occur in
the current state (a click on the disabled button, the settling of something
that is not pending) leaves the state as it is. -/
def step (c : Client) : Event → Client
  | .clickCapture =>
    if c.captureDisabled then c
    else
      let c1 := { c with captureDisabled := true }
      if c1.stream then afterCamera c1
      else { c1 with log := c1.log ++ [.getUserMedia c1.facing],
                     capture := some .awaitGetUserMedia }
  | .getUserMediaSettled granted =>
    match c.capture with
    | some .awaitGetUserMedia =>
      if granted then { c with stream := true, capture := some .awaitPlay }
      else afterCamera (c.emit [.alert cameraAlert])
    | _ => c
  | .playSettled ok =>
    match c.capture with
    | some .awaitPlay =>
      if ok then afterCamera c else afterCamera (c.emit [.alert cameraAlert])
    | _ => c
  | .tick =>
    match c.capture with
    | some (.countdown cur) =>
      if cur - 1 = 0 then snapshotAndUpload (c.emit [.hideOverlay])
      else { c with log := c.log ++ [.showDigit (cur - 1)], capture := some (.countdown (cur - 1)) }
    | _ => c
  | .uploadSettled o =>
    match c.capture with
    | some .awaitUpload =>
      match uploadAlert o with
      | some m => startRefresh (c.emit [.alert m])
      | none => startRefresh c
    | _ => c
  | .refreshSettled ok =>
    match c.capture with
    | some .awaitRefresh =>
      finish (c.emit [if ok then .renderGallery else .galleryUnavailable])
    | _ => c
  | .clickStart =>
    if c.stream then stopCamera c else startCameraDetached c
  | .otherStartSettled granted =>
    if c.otherStarts = 0 then c
    else if granted then { c with otherStarts := c.otherStarts - 1, stream := true }
    else { c with otherStarts := c.otherStarts - 1, log := c.log ++ [.alert cameraAlert] }
  | .flipChange checked =>
    let c1 := { c with facing := if checked then .environment else .user }
    if c1.stream then { stopCamera c1 with flipTimers := c1.flipTimers + 1 } else c1
  | .flipTimer =>
    if c.flipTimers = 0 then c
    else startCameraDetached { c with flipTimers := c.flipTimers - 1 }
  | .setTimer checked => { c with timerChecked := checked }
  | .videoResized w h => { c with videoWidth := w, videoHeight := h }

/-- The state after a sequence of events. -/
def run (c : Client) (events : List Event) : Client :=
  events.foldl step c

/-- The event that settles what a suspended `doCapture` awaits, under given
outcomes. -/
def settleEvent (o : Outcomes) : Stage → Event
  | .awaitGetUserMedia => .getUserMediaSettled o.cameraGranted
  | .awaitPlay => .playSettled o.playOk
  | .countdown _ => .tick
  | .awaitUpload => .uploadSettled o.upload
  | .awaitRefresh => .refreshSettled o.refreshOk

/-- The page after what the in-flight capture awaits has settled (the page
itself when no capture is in flight). -/
def settle (o : Outcomes) (c : Client) : Client :=
  match c.capture with
  | some st => step c (settleEvent o st)
  | none => c

/-- The page after `n` successive settlings. -/
def settleN (o : Outcomes) : Nat → Client → Client
  | 0, c => c
  | n + 1, c => settleN o n (settle o c)

/-- A number of settlings that is enough for the capture in flight in a state
to complete: one per digit left to count down, and at most eight for the rest
(camera, play, three digits, upload, refresh). -/
def settleBound (c : Client) : Nat :=
  match c.capture with
  | some (.countdown cur) => cur + 8
  | _ => 8

/-- The events of the handlers other than the capture: the start/stop
button, the flip toggle and its timer, the countdown checkbox, the video. -/
def fromOtherHandler : Event → Bool
  | .clickStart => true
  | .otherStartSettled _ => true
  | .flipChange _ => true
  | .flipTimer => true
  | .setTimer _ => true
  | .videoResized _ _ => true
  | _ => false

/-- Under outcomes `o`, the capture of state `c` completes within `bound`
settlings: the button is disabled until then and enabled at that point. -/
def ReleasedWithin (o : Outcomes) (bound : Nat) (c : Client) : Prop :=
  ∃ n, n ≤ bound ∧ (settleN o n c).captureDisabled = false ∧ (settleN o n c).capture = none ∧
    ∀ k, k < n → (settleN o k c).captureDisabled = true

/-- The busy guard is set exactly while a capture is in flight. -/
def GuardMatchesCapture (c : Client) : Prop :=
  c.captureDisabled = c.capture.isSome

instance (c : Client) : Decidable (GuardMatchesCapture c) :=
  inferInstanceAs (Decidable (c.captureDisabled = c.capture.isSome))

/-- The page after loading: camera off, front camera preferred, capture
button enabled, nothing in flight. -/
def loaded (timerChecked hasGallery : Bool) : Client :=
  { stream := false, facing := .user, timerChecked := timerChecked, videoWidth := 0,
    videoHeight := 0, contextAvailable := true, hasGallery := hasGallery,
    captureDisabled := false, capture := none, otherStarts := 0, flipTimers := 0, log := [] }

end Client

/-! ## Concrete stores and payloads -/

/-- A store directory: `/srv/app/uploads`. -/
def demoDir : Path :=
  [js "srv", js "app", js "uploads"]

/-- A file system with the store directory, its ancestors and three photos. -/
def demoFs : FS :=
  { nodes := [([js "srv"], .dir 4096 1),
              ([js "srv", js "app"], .dir 4096 2),
              (demoDir, .dir 4096 3),
              (demoDir ++ [js "a.png"], .file [1, 2, 3] 10),
              (demoDir ++ [js "b.png"], .file [1, 2] 20),
              (demoDir ++ [js "c.png"], .file [1] 10)],
    denied := [] }

/-- The file system `demoFs` with an empty store directory. -/
def emptyStoreFs : FS :=
  { nodes := [([js "srv"], .dir 4096 1),
              ([js "srv", js "app"], .dir 4096 2),
              (demoDir, .dir 4096 3)],
    denied := [] }

/-- The file system `demoFs` after `b.png` has been removed. -/
def vanishedFs : FS :=
  { nodes := [([js "srv"], .dir 4096 1),
              ([js "srv", js "app"], .dir 4096 2),
              (demoDir, .dir 4096 3),
              (demoDir ++ [js "a.png"], .file [1, 2, 3] 10),
              (demoDir ++ [js "c.png"], .file [1] 10)],
    denied := [] }

/-- The eight bytes of the PNG signature; their base64 is `iVBORw0KGgo=`. -/
def pngSignature : List Nat :=
  [137, 80, 78, 71, 13, 10, 26, 10]

/-- An environment: a clock value, the rendering of a random value with
eleven base-36 digits, and a file-system time. -/
def demoEnv : UploadEnv :=
  { now := 1700000000000, random36 := js "0.4fzyo82mvyr", fsTime := 30 }

/-- The environment in which `Math.random()` returns `0.5`, which
`toString(36)` renders as `0.i`. -/
def halfEnv : UploadEnv :=
  { now := 1700000000000, random36 := js "0.i", fsTime := 30 }

/-- The file name `\ud800.png`: an unpaired high surrogate and `.png`. -/
def loneSurrogateName : JSString :=
  0xD800 :: js ".png"

/-- A data part of four code units U+0141, whose low byte is that of `A`. -/
def lowByteData : JSString :=
  [0x141, 0x141, 0x141, 0x141]

/-- Outcomes in which the camera start, the upload and the gallery refresh
all fail. -/
def allFail : Outcomes :=
  { cameraGranted := false, playOk := false,
    upload := .networkError (js "Failed to fetch"), refreshOk := false }

/-! ## Direct children of the store directory -/

/-- A name that can stand for a file of a directory: not empty, without a
path separator (code unit 47), and neither `.` nor `..`. -/
def IsProperName (name : JSString) : Prop :=
  name ≠ [] ∧ 47 ∉ name ∧ name ≠ [46] ∧ name ≠ [46, 46]

/-- A path that is a direct child of `dir`: `dir` joined with one proper name. -/
def IsDirectChild (dir target : Path) : Prop :=
  ∃ name, IsProperName name ∧ target = dir ++ [name]

/-! ## Renderings of random values, requests without a file name -/

/-- A base-36 digit as `Number.prototype.toString(36)` writes it: `0-9a-z`. -/
def isBase36Digit (u : Nat) : Bool :=
  (48 ≤ u && u ≤ 57) || (97 ≤ u && u ≤ 122)

/-- The strings `Math.random().toString(36)` can be: `0` for the value zero,
else `0.` followed by one or more base-36 digits. -/
def IsRandomRendering (r : JSString) : Prop :=
  r = [48] ∨ ∃ ds : JSString, ds ≠ [] ∧ (∀ c ∈ ds, isBase36Digit c = true) ∧ r = 48 :: 46 :: ds

/-- A request that names no file: `filename` is absent or falsy, or it is a
string whose base name is empty. -/
def NoRequestedName (v : JSValue) : Prop :=
  v.truthy = false ∨ ∃ s, v = .string s ∧ basename s = []

/-! ## The payload form of the specification -/

/-- The form the specification gives for an inline image payload:
`data:image/<one or more word characters>;base64,<one or more characters,
none a line terminator>`. -/
def HasDataUriForm (s : JSString) : Prop :=
  ∃ w d : JSString, w ≠ [] ∧ (∀ c ∈ w, isWordChar c = true) ∧ d ≠ [] ∧
    (∀ c ∈ d, isLineTerminator c = false) ∧
    s = js "data:image/" ++ w ++ js ";base64," ++ d


/-! # Properties -/

/-! ## The data-URI match -/

theorem dropLit_eq_some (lit s r : JSString) : dropLit lit s = some r ↔ s = lit ++ r := by
  induction lit generalizing s with
  | nil => simp [dropLit, eq_comm]
  | cons c cs ih =>
    cases s with
    | nil => simp [dropLit]
    | cons d ds =>
      by_cases h : c = d
      · subst h; simp [dropLit, ih]
      · simp [dropLit, h]; intro h2; exact absurd h2.symm h

theorem dropLit_append (lit r : JSString) : dropLit lit (lit ++ r) = some r :=
  (dropLit_eq_some lit _ r).mpr rfl

theorem matchDataUri_eq_some (s m d : JSString) :
    matchDataUri s = some (m, d) ↔
      ∃ w : JSString, w ≠ [] ∧ (∀ c ∈ w, isWordChar c = true) ∧ d ≠ [] ∧
        (∀ c ∈ d, isLineTerminator c = false) ∧ m = (js "image/") ++ w ∧
        s = (js "data:image/") ++ w ++ (js ";base64,") ++ d := by
  constructor
  · intro h
    unfold matchDataUri at h
    split at h
    · exact absurd h (by simp)
    · rename_i r1 h1
      simp only at h
      split at h
      · exact absurd h (by simp)
      · rename_i hw
        split at h
        · exact absurd h (by simp)
        · rename_i d1 h2
          split at h
          · rename_i hd
            simp only [Option.some.injEq, Prod.mk.injEq] at h
            obtain ⟨hm, hd1⟩ := h
            subst hd1
            refine ⟨r1.takeWhile isWordChar, ?_, ?_, ?_, ?_, hm.symm, ?_⟩
            · intro h0; simp [h0] at hw
            · intro c hc; exact List.mem_takeWhile_imp hc
            · intro h0; simp [h0] at hd
            · intro c hc
              simp only [Bool.and_eq_true, List.all_eq_true] at hd
              simpa using hd.2 c hc
            · have e1 := (dropLit_eq_some _ _ _).mp h1
              have e2 := (dropLit_eq_some _ _ _).mp h2
              rw [e1, List.append_assoc, List.append_assoc, ← e2,
                List.takeWhile_append_dropWhile]
          · exact absurd h (by simp)
  · rintro ⟨w, hw, hword, hd, hlt, hm, hs⟩
    subst hm hs
    have hsemi : ¬ isWordChar 59 = true := by decide
    have htw : List.takeWhile isWordChar (w ++ (js ";base64," ++ d)) = w := by
      rw [List.takeWhile_append_of_pos hword]
      have : (js ";base64,") ++ d = 59 :: (js "base64," ++ d) := rfl
      rw [this, List.takeWhile_cons_of_neg hsemi, List.append_nil]
    have hdw : List.dropWhile isWordChar (w ++ (js ";base64," ++ d))
        = (js ";base64,") ++ d := by
      rw [List.dropWhile_append_of_pos hword]
      have : (js ";base64,") ++ d = 59 :: (js "base64," ++ d) := rfl
      rw [this, List.dropWhile_cons_of_neg hsemi]
    unfold matchDataUri
    rw [List.append_assoc, List.append_assoc, dropLit_append]
    simp only [htw, hdw, dropLit_append]
    have h1 : w.isEmpty = false := by cases w <;> simp_all
    have h2 : d.isEmpty = false := by cases d <;> simp_all
    have h3 : d.all (fun c => !isLineTerminator c) = true := by
      simp only [List.all_eq_true]; intro c hc; simp [hlt c hc]
    simp [h1, h2, h3]

theorem matchDataUri_isSome (s : JSString) :
    (∃ md, matchDataUri s = some md) ↔ HasDataUriForm s := by
  constructor
  · rintro ⟨⟨m, d⟩, h⟩
    obtain ⟨w, hw, hword, hd, hlt, -, hs⟩ := (matchDataUri_eq_some s m d).mp h
    exact ⟨w, d, hw, hword, hd, hlt, hs⟩
  · rintro ⟨w, d, hw, hword, hd, hlt, hs⟩
    exact ⟨_, (matchDataUri_eq_some s _ d).mpr ⟨w, hw, hword, hd, hlt, rfl, hs⟩⟩

theorem uploadBase64_of_match (dir : Path) (env : UploadEnv) (body : UploadBody) (fs : FS)
    (s m d : JSString) (hi : body.image = .string s) (hm : matchDataUri s = some (m, d)) :
    uploadBase64 dir env body fs =
      match safeNameOf body.filename env (extOf m) with
      | none => (uploadFailed, fs)
      | some safeName => storeAndAnswer dir env safeName (bufferFromBase64 d) fs := by
  have hne : s.isEmpty = false := by
    cases s with
    | nil =>
      have h0 : matchDataUri [] = none := by decide
      rw [h0] at hm; exact absurd hm (by simp)
    | cons _ _ => rfl
  simp only [uploadBase64, hi, hne, hm]
  rfl

theorem storeAndAnswer_status (dir : Path) (env : UploadEnv) (name : JSString)
    (buffer : List Nat) (fs : FS) :
    (storeAndAnswer dir env name buffer fs).1.status = 200 ∨
      (storeAndAnswer dir env name buffer fs).1.status = 500 := by
  unfold storeAndAnswer
  cases fs.writeFile (pathJoin dir name) buffer env.fsTime with
  | none => right; rfl
  | some fs1 =>
    simp only
    cases photoUrl name with
    | none => right; rfl
    | some url => left; rfl

theorem uploadBase64_status_of_match (dir : Path) (env : UploadEnv) (body : UploadBody) (fs : FS)
    (s m d : JSString) (hi : body.image = .string s) (hm : matchDataUri s = some (m, d)) :
    (uploadBase64 dir env body fs).1.status = 200 ∨
      (uploadBase64 dir env body fs).1.status = 500 := by
  rw [uploadBase64_of_match dir env body fs s m d hi hm]
  cases safeNameOf body.filename env (extOf m) with
  | none => right; rfl
  | some n => exact storeAndAnswer_status dir env n _ fs

/-- C1: the upload handler answers 400 with an `error` field and leaves the
store as it was exactly when `image` is missing, is not a string, is empty, or
does not have the data-URI form; `not-a-data-uri` is answered 400 with an
`error` field. -/
theorem upload_rejects_exactly_invalid_payloads :
    (∀ (dir : Path) (env : UploadEnv) (body : UploadBody) (fs : FS),
      ((uploadBase64 dir env body fs).1.status = 400 ∧
        (∃ msg, (uploadBase64 dir env body fs).1.body = .error msg) ∧
        (uploadBase64 dir env body fs).2 = fs) ↔
      (body.image = .undefined ∨ (∀ s, body.image ≠ .string s) ∨ body.image = .string [] ∨
        ∃ s, body.image = .string s ∧ ¬ HasDataUriForm s)) ∧
    (∀ (dir : Path) (env : UploadEnv) (filename : JSValue) (fs : FS),
      uploadBase64 dir env ⟨.string (js "not-a-data-uri"), filename⟩ fs =
        (⟨400, .error (js "Invalid image data")⟩, fs)) := by
  refine ⟨?_, ?_⟩
  · intro dir env body fs
    cases hi : body.image with
    | string s =>
      by_cases hs : s = []
      · subst hs
        simp [uploadBase64, hi]
      · cases hm : matchDataUri s with
        | none =>
          have hform : ¬ HasDataUriForm s := by
            intro hf
            obtain ⟨md, h⟩ := (matchDataUri_isSome s).mpr hf
            rw [hm] at h; exact absurd h (by simp)
          have hne : s.isEmpty = false := by cases s <;> simp_all
          simp [uploadBase64, hi, hm, hne, hform]
        | some md =>
          obtain ⟨m, d⟩ := md
          have hform : HasDataUriForm s := (matchDataUri_isSome s).mp ⟨_, hm⟩
          have hst := uploadBase64_status_of_match dir env body fs s m d hi hm
          constructor
          · rintro ⟨h400, -, -⟩
            rcases hst with h | h <;> rw [h] at h400 <;> exact absurd h400 (by decide)
          · rintro (h | h | h | ⟨s1, h1, h2⟩)
            · exact absurd h (by simp)
            · exact absurd rfl (h s)
            · simp only [JSValue.string.injEq] at h; exact absurd h hs
            · simp only [JSValue.string.injEq] at h1; subst h1; exact absurd hform h2
    | undefined => simp [uploadBase64, hi]
    | null => simp [uploadBase64, hi]
    | bool b => simp [uploadBase64, hi]
    | number n => simp [uploadBase64, hi]
    | object => simp [uploadBase64, hi]
  · intro dir env filename fs
    have hm : matchDataUri (js "not-a-data-uri") = none := by decide
    simp only [uploadBase64]
    rw [hm]
    rfl

/-! ## Base64 round trip -/

theorem unbase64_b64Char : ∀ v, v < 64 → unbase64 (b64Char v) = some v := by decide

theorem b64Char_ne_pad : ∀ v, v < 64 → (lowByte (b64Char v) != 61) = true := by decide

theorem b64Char_not_lineTerminator : ∀ v, v < 64 → isLineTerminator (b64Char v) = false := by
  decide

theorem sextetsOf_b64Char (v : Nat) (hv : v < 64) (cs : JSString) :
    sextetsOf (b64Char v :: cs) = v :: sextetsOf cs := by
  simp [sextetsOf, List.takeWhile_cons, b64Char_ne_pad v hv, unbase64_b64Char v hv]

theorem sextetsOf_pad (cs : JSString) : sextetsOf (61 :: cs) = [] := by
  simp [sextetsOf, List.takeWhile_cons, lowByte]

theorem bufferFromBase64_eq (data : JSString) :
    bufferFromBase64 data = sextetsToBytes (sextetsOf data) := rfl

theorem bufferFromBase64_base64Encode (b : List Nat) (hb : ∀ x ∈ b, x < 256) :
    bufferFromBase64 (base64Encode b) = b := by
  rw [bufferFromBase64_eq]
  induction b using base64Encode.induct with
  | case1 x y z rest ih =>
    have hx : x < 256 := hb x (by simp)
    have hy : y < 256 := hb y (by simp)
    have hz : z < 256 := hb z (by simp)
    have hrest : ∀ u ∈ rest, u < 256 := fun u hu => hb u (by simp [hu])
    simp only [base64Encode]
    rw [sextetsOf_b64Char _ (by omega), sextetsOf_b64Char _ (by omega),
      sextetsOf_b64Char _ (by omega), sextetsOf_b64Char _ (by omega)]
    simp only [sextetsToBytes, ih hrest]
    congr 1
    · omega
    · congr 1
      · omega
      · congr 1
        omega
  | case2 x y =>
    have hx : x < 256 := hb x (by simp)
    have hy : y < 256 := hb y (by simp)
    simp only [base64Encode]
    rw [sextetsOf_b64Char _ (by omega), sextetsOf_b64Char _ (by omega),
      sextetsOf_b64Char _ (by omega), sextetsOf_pad]
    simp only [sextetsToBytes]
    congr 1
    · omega
    · congr 1
      omega
  | case3 x =>
    have hx : x < 256 := hb x (by simp)
    simp only [base64Encode]
    rw [sextetsOf_b64Char _ (by omega), sextetsOf_b64Char _ (by omega), sextetsOf_pad]
    simp only [sextetsToBytes]
    congr 1
    omega
  | case4 => rfl

theorem base64Encode_ne_nil (b : List Nat) (hb : b ≠ []) : base64Encode b ≠ [] := by
  match b, hb with
  | [_], _ => simp [base64Encode]
  | [_, _], _ => simp [base64Encode]
  | _ :: _ :: _ :: _, _ => simp [base64Encode]

theorem pad_not_lineTerminator : isLineTerminator 61 = false := by decide

theorem base64Encode_no_lineTerminator (b : List Nat) (hb : ∀ x ∈ b, x < 256) :
    ∀ c ∈ base64Encode b, isLineTerminator c = false := by
  induction b using base64Encode.induct with
  | case1 x y z rest ih =>
    have hx : x < 256 := hb x (by simp)
    have hy : y < 256 := hb y (by simp)
    have hz : z < 256 := hb z (by simp)
    have hrest : ∀ u ∈ rest, u < 256 := fun u hu => hb u (by simp [hu])
    intro c hc
    simp only [base64Encode, List.mem_cons] at hc
    rcases hc with h | h | h | h | h
    · rw [h]; exact b64Char_not_lineTerminator _ (by omega)
    · rw [h]; exact b64Char_not_lineTerminator _ (by omega)
    · rw [h]; exact b64Char_not_lineTerminator _ (by omega)
    · rw [h]; exact b64Char_not_lineTerminator _ (by omega)
    · exact ih hrest c h
  | case2 x y =>
    have hx : x < 256 := hb x (by simp)
    have hy : y < 256 := hb y (by simp)
    intro c hc
    simp only [base64Encode, List.mem_cons, List.not_mem_nil, or_false] at hc
    rcases hc with h | h | h | h
    · rw [h]; exact b64Char_not_lineTerminator _ (by omega)
    · rw [h]; exact b64Char_not_lineTerminator _ (by omega)
    · rw [h]; exact b64Char_not_lineTerminator _ (by omega)
    · rw [h]; exact pad_not_lineTerminator
  | case3 x =>
    have hx : x < 256 := hb x (by simp)
    intro c hc
    simp only [base64Encode, List.mem_cons, List.not_mem_nil, or_false] at hc
    rcases hc with h | h | h | h
    · rw [h]; exact b64Char_not_lineTerminator _ (by omega)
    · rw [h]; exact b64Char_not_lineTerminator _ (by omega)
    · rw [h]; exact pad_not_lineTerminator
    · rw [h]; exact pad_not_lineTerminator
  | case4 => intro c hc; simp [base64Encode] at hc

/-! ## The extension of an accepted payload -/

theorem slash_not_wordChar : isWordChar 47 = false := by decide

theorem splitSlash_of_no_slash (w : JSString) (hw : ∀ c ∈ w, c ≠ 47) : splitSlash w = [w] := by
  induction w with
  | nil => rfl
  | cons c cs ih =>
    have h1 : c ≠ 47 := hw c (by simp)
    have h2 := ih (fun d hd => hw d (by simp [hd]))
    simp [splitSlash, h2, h1]

theorem extOf_image (w : JSString) (hw : w ≠ []) (hword : ∀ c ∈ w, isWordChar c = true) :
    extOf ((js "image/") ++ w) = w := by
  have hns : ∀ c ∈ w, c ≠ 47 := by
    intro c hc h
    have := hword c hc
    rw [h, slash_not_wordChar] at this
    exact absurd this (by simp)
  have hsplit : splitSlash ((js "image/") ++ w) = [(js "image"), w] := by
    have e : (js "image/") ++ w = 105 :: 109 :: 97 :: 103 :: 101 :: 47 :: w := rfl
    have e2 : js "image" = [105, 109, 97, 103, 101] := rfl
    rw [e, e2]
    simp [splitSlash, splitSlash_of_no_slash w hns]
  unfold extOf
  rw [hsplit]
  cases w with
  | nil => exact absurd rfl hw
  | cons c cs => rfl

/-! ## File-system lemmas -/

theorem lookup_map_replace (p : Path) (v : Node) (nodes : List (Path × Node))
    (h : (nodes.lookup p).isSome = true) :
    (nodes.map (fun e => if e.1 = p then (p, v) else e)).lookup p = some v := by
  induction nodes with
  | nil => simp at h
  | cons e es ih =>
    obtain ⟨k, n⟩ := e
    by_cases hk : k = p
    · subst hk; simp [List.lookup_cons]
    · have hk2 : (p == k) = false := by simp [Ne.symm hk]
      simp only [List.lookup_cons, hk2] at h
      simp [List.lookup_cons, hk, hk2, ih h]

theorem lookup_map_replace_other (p q : Path) (v : Node) (nodes : List (Path × Node))
    (hq : q ≠ p) :
    (nodes.map (fun e => if e.1 = p then (p, v) else e)).lookup q = nodes.lookup q := by
  induction nodes with
  | nil => rfl
  | cons e es ih =>
    obtain ⟨k, n⟩ := e
    by_cases hk : k = p
    · subst hk
      have : (q == k) = false := by simp [hq]
      simp [List.lookup_cons, this, ih]
    · by_cases hqk : q = k
      · subst hqk; simp [List.lookup_cons, hk]
      · have : (q == k) = false := by simp [hqk]
        simp [List.lookup_cons, hk, this, ih]

theorem lookup_append_new (p q : Path) (v : Node) (nodes : List (Path × Node)) :
    (nodes ++ [(p, v)]).lookup q =
      match nodes.lookup q with
      | some n => some n
      | none => if q = p then some v else none := by
  induction nodes with
  | nil =>
    by_cases h : q = p
    · subst h; simp [List.lookup_cons]
    · have : (q == p) = false := by simp [h]
      simp [List.lookup_cons, this, h]
  | cons e es ih =>
    obtain ⟨k, n⟩ := e
    by_cases hqk : q = k
    · subst hqk; simp [List.lookup_cons]
    · have : (q == k) = false := by simp [hqk]
      simp only [List.cons_append, List.lookup_cons, this, ih]

theorem lookup_filter_ne (p q : Path) (nodes : List (Path × Node)) :
    (nodes.filter (fun e => e.1 != p)).lookup q = if q = p then none else nodes.lookup q := by
  induction nodes with
  | nil => simp
  | cons e es ih =>
    obtain ⟨k, n⟩ := e
    by_cases hk : k = p
    · subst hk
      by_cases hq : q = k
      · subst hq; simp [List.filter_cons, ih]
      · have : (q == k) = false := by simp [hq]
        simp [List.filter_cons, ih, hq, List.lookup_cons, this]
    · have hk2 : (k != p) = true := by simp [hk]
      by_cases hq : q = k
      · subst hq; simp [List.filter_cons, hk2, List.lookup_cons, hk]
      · have : (q == k) = false := by simp [hq]
        simp only [List.filter_cons, hk2, if_true, List.lookup_cons, this, ih]

theorem osPath_eq_nil (p : Path) : osPath p = [] ↔ p = [] := by
  simp [osPath]

namespace FS

theorem readFile_writeFile (fs fs1 : FS) (p : Path) (bytes : List Nat) (t : Int)
    (h : fs.writeFile p bytes t = some fs1) : fs1.readFile p = some bytes := by
  unfold writeFile at h
  split at h
  · exact absurd h (by simp)
  · by_cases hp : osPath p = []
    · simp [node, hp] at h
    · simp only [node, hp, if_false] at h
      split at h
      · exact absurd h (by simp)
      · rename_i b0 t0 hn
        simp only [Option.some.injEq] at h
        subst h
        have : (fs.nodes.lookup (osPath p)).isSome = true := by rw [hn]; rfl
        simp [readFile, node, hp, lookup_map_replace (osPath p) _ fs.nodes this]
      · rename_i hn
        split at h
        · simp only [Option.some.injEq] at h
          subst h
          simp [readFile, node, hp, lookup_append_new, hn]
        · exact absurd h (by simp)

theorem node_writeFile_other (fs fs1 : FS) (p q : Path) (bytes : List Nat) (t : Int)
    (h : fs.writeFile p bytes t = some fs1) (hq : osPath q ≠ osPath p) :
    fs1.node q = fs.node q := by
  unfold writeFile at h
  split at h
  · exact absurd h (by simp)
  · split at h
    · exact absurd h (by simp)
    · simp only [Option.some.injEq] at h
      subst h
      simp only [node]
      split
      · rfl
      · exact lookup_map_replace_other (osPath p) (osPath q) _ fs.nodes hq
    · split at h
      · simp only [Option.some.injEq] at h
        subst h
        simp only [node]
        split
        · rfl
        · rw [lookup_append_new]
          cases fs.nodes.lookup (osPath q) <;> simp [hq]
      · exact absurd h (by simp)

theorem node_unlink_self (fs fs1 : FS) (p : Path) (h : fs.unlink p = some fs1) :
    fs1.node p = none ∧ ∃ bytes t, fs.node p = some (.file bytes t) := by
  unfold unlink at h
  split at h
  · exact absurd h (by simp)
  · split at h
    · rename_i b0 t0 hn
      simp only [Option.some.injEq] at h
      subst h
      have hp : osPath p ≠ [] := by
        intro hp; simp [node, hp] at hn
      exact ⟨by simp [node, hp, lookup_filter_ne], b0, t0, hn⟩
    · exact absurd h (by simp)

theorem node_unlink_other (fs fs1 : FS) (p q : Path) (h : fs.unlink p = some fs1)
    (hq : osPath q ≠ osPath p) : fs1.node q = fs.node q := by
  unfold unlink at h
  split at h
  · exact absurd h (by simp)
  · split at h
    · simp only [Option.some.injEq] at h
      subst h
      simp [node, lookup_filter_ne, hq]
    · exact absurd h (by simp)

theorem unlink_of_file (fs : FS) (p : Path) (bytes : List Nat) (t : Int)
    (hn : fs.node p = some (.file bytes t)) (hd : osPath p ∉ fs.denied) :
    fs.unlink p = some { fs with nodes := fs.nodes.filter (fun e => e.1 != osPath p) } := by
  simp [unlink, hd, hn]

end FS

/-! ## Well-formed strings and `encodeURIComponent` -/

theorem encodeURIComponent_cons (u : Nat) (rest : JSString)
    (h1 : isLead u = false) (h2 : isTrail u = false) :
    encodeURIComponent (u :: rest) =
      (encodeURIComponent rest).map (fun r => encodeUnit u ++ r) := by
  cases rest with
  | nil => simp [encodeURIComponent, h1, h2]
  | cons v rest2 => simp [encodeURIComponent, h1, h2]

theorem replacement_not_surrogate : isLead 0xFFFD = false ∧ isTrail 0xFFFD = false := by
  decide

theorem encodeURIComponent_toWellFormed (s : JSString) :
    (encodeURIComponent (toWellFormed s)).isSome = true := by
  induction s using toWellFormed.induct with
  | case1 => rfl
  | case2 u h =>
    simp only [toWellFormed, h, if_true]
    rfl
  | case3 u h =>
    simp only [toWellFormed, h]
    simp only [Bool.or_eq_true, not_or, Bool.not_eq_true] at h
    simp [encodeURIComponent, h.1, h.2]
  | case4 u v rest h ih =>
    simp only [toWellFormed, h, if_true]
    simp only [Bool.and_eq_true] at h
    simp only [encodeURIComponent, h.1, h.2, if_true]
    cases hr : encodeURIComponent (toWellFormed rest) with
    | none => rw [hr] at ih; exact absurd ih (by simp)
    | some r => rfl
  | case5 u v rest h1 h2 ih =>
    have e : toWellFormed (u :: v :: rest) = 0xFFFD :: toWellFormed (v :: rest) := by
      simp [toWellFormed, h1, h2]
    rw [e]
    rw [encodeURIComponent_cons _ _ replacement_not_surrogate.1 replacement_not_surrogate.2]
    cases hr : encodeURIComponent (toWellFormed (v :: rest)) with
    | none => rw [hr] at ih; exact absurd ih (by simp)
    | some r => rfl
  | case6 u v rest h1 h2 ih =>
    have e : toWellFormed (u :: v :: rest) = u :: toWellFormed (v :: rest) := by
      simp [toWellFormed, h1, h2]
    rw [e]
    simp only [Bool.or_eq_true, not_or, Bool.not_eq_true] at h2
    rw [encodeURIComponent_cons _ _ h2.1 h2.2]
    cases hr : encodeURIComponent (toWellFormed (v :: rest)) with
    | none => rw [hr] at ih; exact absurd ih (by simp)
    | some r => rfl

theorem unreserved_not_surrogate (u : Nat) (h : isUriUnreserved u = true) :
    isLead u = false ∧ isTrail u = false := by
  simp only [isUriUnreserved, isAsciiAlnum, Bool.or_eq_true, Bool.and_eq_true,
    decide_eq_true_eq, beq_iff_eq] at h
  simp only [isLead, isTrail, Bool.and_eq_false_iff, decide_eq_false_iff_not]
  omega

theorem encodeURIComponent_of_unreserved (s : JSString)
    (h : ∀ u ∈ s, isUriUnreserved u = true) : encodeURIComponent s = some s := by
  induction s with
  | nil => rfl
  | cons u rest ih =>
    have hu := h u (by simp)
    obtain ⟨h1, h2⟩ := unreserved_not_surrogate u hu
    rw [encodeURIComponent_cons u rest h1 h2, ih (fun v hv => h v (by simp [hv]))]
    simp [encodeUnit, hu]

theorem photoUrl_of_unreserved (s : JSString) (h : ∀ u ∈ s, isUriUnreserved u = true) :
    photoUrl s = some (js "/uploads/" ++ s) := by
  simp [photoUrl, encodeURIComponent_of_unreserved s h]

theorem photoUrl_toWellFormed (s : JSString) : (photoUrl (toWellFormed s)).isSome = true := by
  have h := encodeURIComponent_toWellFormed s
  cases hr : encodeURIComponent (toWellFormed s) with
  | none => rw [hr] at h; exact absurd h (by simp)
  | some r => simp [photoUrl, hr]

theorem readdir_names_encodable (fs : FS) (dir : Path) (files : List JSString)
    (h : fs.readdir dir = some files) : ∀ f ∈ files, (photoUrl f).isSome = true := by
  unfold FS.readdir at h
  split at h
  · simp only [Option.some.injEq] at h
    subst h
    intro f hf
    simp only [List.mem_filterMap] at hf
    obtain ⟨e, -, he⟩ := hf
    unfold FS.childName at he
    split at he
    · cases hl : e.1.getLast? with
      | none => rw [hl] at he; simp at he
      | some g =>
        rw [hl] at he
        simp only [Option.map_some', Option.some.injEq] at he
        subst he
        exact photoUrl_toWellFormed g
    · exact absurd he (by simp)
  · exact absurd h (by simp)

/-! ## `POST /api/upload-base64` -/

theorem storeAndAnswer_eq (dir : Path) (env : UploadEnv) (name : JSString) (buffer : List Nat)
    (fs : FS) :
    storeAndAnswer dir env name buffer fs =
      (match fs.writeFile (pathJoin dir name) buffer env.fsTime with
       | none => (uploadFailed, fs)
       | some fs1 =>
         match photoUrl name with
         | none => (uploadFailed, fs1)
         | some url => (⟨200, .uploaded name url⟩, fs1)) := rfl

theorem storeAndAnswer_ok_inv (dir : Path) (env : UploadEnv) (name : JSString)
    (buffer : List Nat) (fs : FS) (n url : JSString) (fs1 : FS)
    (h : storeAndAnswer dir env name buffer fs = (⟨200, .uploaded n url⟩, fs1)) :
    n = name ∧ fs.writeFile (pathJoin dir name) buffer env.fsTime = some fs1 ∧
      photoUrl name = some url := by
  rw [storeAndAnswer_eq] at h
  cases hw : fs.writeFile (pathJoin dir name) buffer env.fsTime with
  | none =>
    rw [hw] at h
    simp [uploadFailed] at h
  | some fs2 =>
    rw [hw] at h
    simp only at h
    cases hu : photoUrl name with
    | none =>
      rw [hu] at h
      simp [uploadFailed] at h
    | some url2 =>
      rw [hu] at h
      simp only [Prod.mk.injEq, Response.mk.injEq, Body.uploaded.injEq, true_and] at h
      obtain ⟨⟨h1, h2⟩, h3⟩ := h
      subst h1 h2 h3
      exact ⟨rfl, rfl, rfl⟩

theorem storeAndAnswer_failed (dir : Path) (env : UploadEnv) (name : JSString)
    (buffer : List Nat) (fs : FS)
    (h : (storeAndAnswer dir env name buffer fs).1.status = 500) :
    (storeAndAnswer dir env name buffer fs).2 = fs ∨
      (encodeURIComponent name = none ∧
        fs.writeFile (pathJoin dir name) buffer env.fsTime =
          some (storeAndAnswer dir env name buffer fs).2) := by
  rw [storeAndAnswer_eq] at h ⊢
  cases hw : fs.writeFile (pathJoin dir name) buffer env.fsTime with
  | none => left; rfl
  | some fs2 =>
    rw [hw] at h
    simp only at h ⊢
    cases hu : photoUrl name with
    | none =>
      right
      refine ⟨?_, rfl⟩
      cases he : encodeURIComponent name with
      | none => rfl
      | some e => simp [photoUrl, he] at hu
    | some url =>
      rw [hu] at h
      have h2 : (200 : Nat) = 500 := h
      exact absurd h2 (by decide)

theorem uploadBase64_ok_inv (dir : Path) (env : UploadEnv) (body : UploadBody) (fs : FS)
    (s m d : JSString) (hi : body.image = .string s) (hm : matchDataUri s = some (m, d))
    (name url : JSString) (fs1 : FS)
    (h : uploadBase64 dir env body fs = (⟨200, .uploaded name url⟩, fs1)) :
    safeNameOf body.filename env (extOf m) = some name ∧
      fs.writeFile (pathJoin dir name) (bufferFromBase64 d) env.fsTime = some fs1 ∧
      photoUrl name = some url := by
  rw [uploadBase64_of_match dir env body fs s m d hi hm] at h
  cases hn : safeNameOf body.filename env (extOf m) with
  | none =>
    rw [hn] at h
    simp [uploadFailed] at h
  | some n =>
    rw [hn] at h
    simp only at h
    obtain ⟨h1, h2, h3⟩ := storeAndAnswer_ok_inv dir env n _ fs name url fs1 h
    subst h1
    exact ⟨rfl, h2, h3⟩

theorem payload_matches (b : List Nat) (w : JSString) (hb : b ≠ [])
    (hbytes : ∀ x ∈ b, x < 256) (hw : w ≠ []) (hword : ∀ c ∈ w, isWordChar c = true) :
    matchDataUri (js "data:image/" ++ w ++ js ";base64," ++ base64Encode b) =
      some (js "image/" ++ w, base64Encode b) :=
  (matchDataUri_eq_some _ _ _).mpr
    ⟨w, hw, hword, base64Encode_ne_nil b hb, base64Encode_no_lineTerminator b hbytes, rfl, rfl⟩

/-- C2: given the payload `data:image/<subtype>;base64,` followed by the
padded base64 of a non-empty byte sequence `b`, the handler decodes exactly
`b`: the buffer it hands to `writeFile` is `b`, and whenever it answers 200 the
stored file holds `b`, whose re-encoding is the data part of the payload. -/
theorem upload_round_trip (dir : Path) (env : UploadEnv) (filename : JSValue) (fs : FS)
    (b : List Nat) (w : JSString) (hb : b ≠ []) (hbytes : ∀ x ∈ b, x < 256)
    (hw : w ≠ []) (hword : ∀ c ∈ w, isWordChar c = true) :
    bufferFromBase64 (base64Encode b) = b ∧
    uploadBase64 dir env
        ⟨.string (js "data:image/" ++ w ++ js ";base64," ++ base64Encode b), filename⟩ fs =
      (match safeNameOf filename env w with
       | none => (uploadFailed, fs)
       | some name =>
         match fs.writeFile (pathJoin dir name) b env.fsTime with
         | none => (uploadFailed, fs)
         | some fs1 =>
           match photoUrl name with
           | none => (uploadFailed, fs1)
           | some url => (⟨200, .uploaded name url⟩, fs1)) ∧
    (∀ name url fs1,
      uploadBase64 dir env
          ⟨.string (js "data:image/" ++ w ++ js ";base64," ++ base64Encode b), filename⟩
          fs = (⟨200, .uploaded name url⟩, fs1) →
        fs1.readFile (pathJoin dir name) = some b ∧
          (fs1.readFile (pathJoin dir name)).map base64Encode = some (base64Encode b)) := by
  have hdec := bufferFromBase64_base64Encode b hbytes
  have hm := payload_matches b w hb hbytes hw hword
  refine ⟨hdec, ?_, ?_⟩
  · rw [uploadBase64_of_match dir env _ fs _ _ _ rfl hm, extOf_image w hw hword, hdec]
    rfl
  · intro name url fs1 h
    obtain ⟨-, hwr, -⟩ := uploadBase64_ok_inv dir env _ fs _ _ _ rfl hm name url fs1 h
    rw [hdec] at hwr
    have hr := FS.readFile_writeFile fs fs1 _ b env.fsTime hwr
    exact ⟨hr, by rw [hr]; rfl⟩

/-- C2 at the payload `data:image/png;base64,iVBORw0KGgo=`: the eight bytes
of the PNG signature are decoded, stored under the generated name, and read
back unchanged. -/
theorem upload_round_trip_witness :
    (pngSignature ≠ [] ∧ (∀ x ∈ pngSignature, x < 256) ∧
      base64Encode pngSignature = js "iVBORw0KGgo=") ∧
    bufferFromBase64 (js "iVBORw0KGgo=") = pngSignature ∧
    (uploadBase64 demoDir demoEnv
        ⟨.string (js "data:image/png;base64,iVBORw0KGgo="), .undefined⟩ demoFs).1 =
      ⟨200, .uploaded (js "1700000000000-4fzyo8.png")
        (js "/uploads/1700000000000-4fzyo8.png")⟩ ∧
    (uploadBase64 demoDir demoEnv
        ⟨.string (js "data:image/png;base64,iVBORw0KGgo="), .undefined⟩ demoFs).2.readFile
      (demoDir ++ [js "1700000000000-4fzyo8.png"]) = some pngSignature :=
  ⟨⟨by decide, by decide, by decide⟩,
   (upload_round_trip demoDir demoEnv .undefined demoFs pngSignature (js "png")
      (by decide) (by decide) (by decide) (by decide)).1,
   by decide, by decide⟩

/-- C7, as stated, fails: the payload `data:image/png;base64,!!!!` matches the
tag pattern and none of its data characters is a base64 digit, yet the handler
answers 200 and stores a file (an empty one). -/
theorem malformed_base64_is_stored :
    matchDataUri (js "data:image/png;base64,!!!!") = some (js "image/png", js "!!!!") ∧
    (∀ c ∈ js "!!!!", unbase64 c = none) ∧
    (uploadBase64 demoDir halfEnv
        ⟨.string (js "data:image/png;base64,!!!!"), .undefined⟩ demoFs).1 =
      ⟨200, .uploaded (js "1700000000000-i.png") (js "/uploads/1700000000000-i.png")⟩ ∧
    demoFs.readFile (demoDir ++ [js "1700000000000-i.png"]) = none ∧
    (uploadBase64 demoDir halfEnv
        ⟨.string (js "data:image/png;base64,!!!!"), .undefined⟩ demoFs).2.readFile
      (demoDir ++ [js "1700000000000-i.png"]) = some [] := by
  decide

/-- C7 amended: for a payload that matches the tag pattern, whatever its data
part, the handler never answers a client error.  It answers 200 or 500; the
buffer it hands to `writeFile` is what Node's decoder makes of the data part
(the low byte of each code unit is looked at, decoding stops at the first `=`,
bytes outside the alphabet are skipped); a 200 means that these bytes are
stored under the answered name; a 500 leaves the store as it was, unless it
comes from `encodeURIComponent` throwing on the name after the write, in which
case the file is stored all the same. -/
theorem upload_never_rejects_matching_payload (dir : Path) (env : UploadEnv)
    (body : UploadBody) (fs : FS) (s m d : JSString)
    (hi : body.image = .string s) (hm : matchDataUri s = some (m, d)) :
    ((uploadBase64 dir env body fs).1.status = 200 ∨
      (uploadBase64 dir env body fs).1.status = 500) ∧
    uploadBase64 dir env body fs =
      (match safeNameOf body.filename env (extOf m) with
       | none => (uploadFailed, fs)
       | some name =>
         match fs.writeFile (pathJoin dir name) (bufferFromBase64 d) env.fsTime with
         | none => (uploadFailed, fs)
         | some fs1 =>
           match photoUrl name with
           | none => (uploadFailed, fs1)
           | some url => (⟨200, .uploaded name url⟩, fs1)) ∧
    (∀ name url fs1, uploadBase64 dir env body fs = (⟨200, .uploaded name url⟩, fs1) →
      fs.writeFile (pathJoin dir name) (bufferFromBase64 d) env.fsTime = some fs1 ∧
        fs1.readFile (pathJoin dir name) = some (bufferFromBase64 d)) ∧
    ((uploadBase64 dir env body fs).1.status = 500 →
      (uploadBase64 dir env body fs).2 = fs ∨
        ∃ name, safeNameOf body.filename env (extOf m) = some name ∧
          encodeURIComponent name = none ∧
          fs.writeFile (pathJoin dir name) (bufferFromBase64 d) env.fsTime =
            some (uploadBase64 dir env body fs).2) := by
  refine ⟨uploadBase64_status_of_match dir env body fs s m d hi hm, ?_, ?_, ?_⟩
  · rw [uploadBase64_of_match dir env body fs s m d hi hm]
    rfl
  · intro name url fs1 h
    obtain ⟨-, hwr, -⟩ := uploadBase64_ok_inv dir env body fs s m d hi hm name url fs1 h
    exact ⟨hwr, FS.readFile_writeFile fs fs1 _ _ env.fsTime hwr⟩
  · rw [uploadBase64_of_match dir env body fs s m d hi hm]
    cases hn : safeNameOf body.filename env (extOf m) with
    | none => intro _; left; rfl
    | some n =>
      simp only
      intro h
      rcases storeAndAnswer_failed dir env n _ fs h with h1 | ⟨h1, h2⟩
      · left; exact h1
      · right; exact ⟨n, rfl, h1, h2⟩

/-- C7 amended, at two payloads.  The data part of four code units U+0141
(low byte `A`) sent under the name `shot.jpg` is answered 200 and stored as
three zero bytes.  The data part `AAAA` sent under the name `\ud800.png` is
written, then `encodeURIComponent` throws and the answer is 500 with the file
stored. -/
theorem upload_never_rejects_matching_payload_witness :
    matchDataUri (js "data:image/jpeg;base64," ++ lowByteData) =
      some (js "image/jpeg", lowByteData) ∧
    (uploadBase64 demoDir demoEnv
        ⟨.string (js "data:image/jpeg;base64," ++ lowByteData), .string (js "shot.jpg")⟩
        demoFs).1.status = 200 ∧
    (uploadBase64 demoDir demoEnv
        ⟨.string (js "data:image/jpeg;base64," ++ lowByteData), .string (js "shot.jpg")⟩
        demoFs).2.readFile (pathJoin demoDir (js "shot.jpg")) = some [0, 0, 0] ∧
    encodeURIComponent loneSurrogateName = none ∧
    (uploadBase64 demoDir demoEnv
        ⟨.string (js "data:image/png;base64,AAAA"), .string loneSurrogateName⟩ demoFs).1 =
      uploadFailed ∧
    demoFs.readFile (demoDir ++ [loneSurrogateName]) = none ∧
    (uploadBase64 demoDir demoEnv
        ⟨.string (js "data:image/png;base64,AAAA"), .string loneSurrogateName⟩
        demoFs).2.readFile (demoDir ++ [loneSurrogateName]) = some [0, 0, 0] :=
  ⟨by decide, by decide,
   ((upload_never_rejects_matching_payload demoDir demoEnv
      ⟨.string (js "data:image/jpeg;base64," ++ lowByteData), .string (js "shot.jpg")⟩ demoFs
      (js "data:image/jpeg;base64," ++ lowByteData) (js "image/jpeg") lowByteData rfl
      (by decide)).2.2.1 (js "shot.jpg") (js "/uploads/shot.jpg") _ (by decide)).2,
   by decide, by decide, by decide, by decide⟩

/-! ## The generated file name -/

theorem digitChar_isDigit : ∀ d, d < 10 → 48 ≤ (Nat.digitChar d).toNat ∧ (Nat.digitChar d).toNat ≤ 57 := by
  decide

theorem toDigitsCore_digits (fuel : Nat) :
    ∀ (n : Nat) (ds : List Char), (∀ c ∈ ds, 48 ≤ c.toNat ∧ c.toNat ≤ 57) →
      ∀ c ∈ Nat.toDigitsCore 10 fuel n ds, 48 ≤ c.toNat ∧ c.toNat ≤ 57 := by
  induction fuel with
  | zero => intro n ds h c hc; exact h c (by simpa [Nat.toDigitsCore] using hc)
  | succ fuel ih =>
    intro n ds h c hc
    have hd := digitChar_isDigit (n % 10) (Nat.mod_lt _ (by decide))
    have hds : ∀ c ∈ Nat.digitChar (n % 10) :: ds, 48 ≤ c.toNat ∧ c.toNat ≤ 57 := by
      intro c hc
      rcases List.mem_cons.mp hc with h1 | h1
      · rw [h1]; exact hd
      · exact h c h1
    simp only [Nat.toDigitsCore] at hc
    split at hc
    · exact hds c hc
    · exact ih _ _ hds c hc

theorem decimal_digits (n : Nat) : ∀ u ∈ decimal n, 48 ≤ u ∧ u ≤ 57 := by
  intro u hu
  simp only [decimal, List.mem_map] at hu
  obtain ⟨c, hc, rfl⟩ := hu
  exact toDigitsCore_digits _ _ _ (by simp) c hc

theorem unreserved_of_digit (u : Nat) (h : 48 ≤ u ∧ u ≤ 57) : isUriUnreserved u = true := by
  simp [isUriUnreserved, isAsciiAlnum, h.1, h.2]

theorem unreserved_of_base36 (u : Nat) (h : isBase36Digit u = true) :
    isUriUnreserved u = true := by
  simp only [isBase36Digit, Bool.or_eq_true, Bool.and_eq_true, decide_eq_true_eq] at h
  simp only [isUriUnreserved, isAsciiAlnum, Bool.or_eq_true, Bool.and_eq_true,
    decide_eq_true_eq, beq_iff_eq]
  omega

theorem unreserved_of_wordChar (u : Nat) (h : isWordChar u = true) :
    isUriUnreserved u = true := by
  simp only [isWordChar, isAsciiAlnum, Bool.or_eq_true, Bool.and_eq_true,
    decide_eq_true_eq, beq_iff_eq] at h
  simp only [isUriUnreserved, isAsciiAlnum, Bool.or_eq_true, Bool.and_eq_true,
    decide_eq_true_eq, beq_iff_eq]
  omega

theorem safeNameOf_of_noRequestedName (v : JSValue) (env : UploadEnv) (ext : JSString)
    (h : NoRequestedName v) : safeNameOf v env ext = some (generatedName env ext) := by
  rcases h with h | ⟨s, hs, hb⟩
  · cases v with
    | string s =>
      have : s.isEmpty = true := by simpa [JSValue.truthy] using h
      simp [safeNameOf, this]
    | undefined => rfl
    | null => rfl
    | bool b => simp [JSValue.truthy] at h; subst h; rfl
    | number n => simp [JSValue.truthy] at h; subst h; rfl
    | object => simp [JSValue.truthy] at h
  · subst hs
    unfold safeNameOf
    simp only [hb]
    split <;> rfl

theorem slice28_of_rendering (r : JSString) (h : IsRandomRendering r) :
    (slice28 r).length ≤ 6 ∧ (∀ c ∈ slice28 r, isBase36Digit c = true) ∧
      (8 ≤ r.length → (slice28 r).length = 6) := by
  rcases h with h | ⟨ds, -, hds, h⟩
  · subst h; decide
  · subst h
    have e : slice28 (48 :: 46 :: ds) = ds.take 6 := rfl
    rw [e]
    refine ⟨by simp [List.length_take], ?_, ?_⟩
    · intro c hc
      exact hds c (List.mem_of_mem_take hc)
    · intro hl
      simp only [List.length_cons] at hl
      simp only [List.length_take]
      omega

theorem generatedName_unreserved (env : UploadEnv) (w : JSString)
    (hr : IsRandomRendering env.random36) (hword : ∀ c ∈ w, isWordChar c = true) :
    ∀ u ∈ generatedName env w, isUriUnreserved u = true := by
  intro u hu
  simp only [generatedName, List.mem_append, List.mem_singleton] at hu
  rcases hu with (((h | h) | h) | h) | h
  · exact unreserved_of_digit u (decimal_digits _ u h)
  · subst h; decide
  · exact unreserved_of_base36 u ((slice28_of_rendering _ hr).2.1 u h)
  · subst h; decide
  · exact unreserved_of_wordChar u (hword u h)

/-- C8, as stated, fails: when `Math.random()` returns `0.5`, rendered `0.i`
in base 36, the token of the generated name is the single character `i`. -/
theorem generated_token_can_be_short :
    IsRandomRendering halfEnv.random36 ∧
    (uploadBase64 demoDir halfEnv
        ⟨.string (js "data:image/png;base64,iVBORw0KGgo="), .undefined⟩ demoFs).1 =
      ⟨200, .uploaded (js "1700000000000-i.png") (js "/uploads/1700000000000-i.png")⟩ ∧
    slice28 halfEnv.random36 = js "i" ∧
    (slice28 halfEnv.random36).length ≠ 6 :=
  ⟨Or.inr ⟨js "i", by decide, by decide, rfl⟩, by decide, by decide, by decide⟩

/-- C8 amended: for an accepted payload of media type `image/<subtype>` sent
without a requested file name, every clock value and every rendering of a
random value, the chosen file name is
`<decimal clock value>-<token>.<subtype>`, where the token is the first six
base-36 digits after `0.` of the rendering: at most six characters of `0-9a-z`,
exactly six when the rendering has that many; the extension is the subtype
itself, and the name is the one the handler writes and answers. -/
theorem generated_filename_shape (dir : Path) (env : UploadEnv) (body : UploadBody) (fs : FS)
    (s w d : JSString) (hi : body.image = .string s)
    (hm : matchDataUri s = some (js "image/" ++ w, d))
    (hno : NoRequestedName body.filename) (hr : IsRandomRendering env.random36) :
    extOf (js "image/" ++ w) = w ∧
    (slice28 env.random36).length ≤ 6 ∧
    (∀ c ∈ slice28 env.random36, isBase36Digit c = true) ∧
    (8 ≤ env.random36.length → (slice28 env.random36).length = 6) ∧
    safeNameOf body.filename env (extOf (js "image/" ++ w)) =
      some (decimal env.now ++ [45] ++ slice28 env.random36 ++ [46] ++ w) ∧
    uploadBase64 dir env body fs =
      (match fs.writeFile
          (pathJoin dir (decimal env.now ++ [45] ++ slice28 env.random36 ++ [46] ++ w))
          (bufferFromBase64 d) env.fsTime with
       | none => (uploadFailed, fs)
       | some fs1 =>
         (⟨200, .uploaded (decimal env.now ++ [45] ++ slice28 env.random36 ++ [46] ++ w)
            (js "/uploads/" ++ (decimal env.now ++ [45] ++ slice28 env.random36 ++ [46] ++ w))⟩,
          fs1)) := by
  obtain ⟨w1, hw1, hword, -, -, hmw, -⟩ := (matchDataUri_eq_some s _ d).mp hm
  have hww : w = w1 := List.append_cancel_left hmw
  subst hww
  have hext := extOf_image w hw1 hword
  obtain ⟨h1, h2, h3⟩ := slice28_of_rendering env.random36 hr
  have hname := safeNameOf_of_noRequestedName body.filename env (extOf (js "image/" ++ w)) hno
  rw [hext] at hname
  have hurl := photoUrl_of_unreserved _ (generatedName_unreserved env w hr hword)
  refine ⟨hext, h1, h2, h3, ?_, ?_⟩
  · rw [hext]; exact hname
  · rw [uploadBase64_of_match dir env body fs s _ d hi hm, hext, hname]
    simp only [storeAndAnswer_eq, hurl]
    rfl

/-- C8 amended, at an `image/png` payload sent without a name: the generated
name is `1700000000000-4fzyo8.png`, with a six-character token and the
extension `.png`. -/
theorem generated_filename_shape_witness :
    (uploadBase64 demoDir demoEnv
        ⟨.string (js "data:image/png;base64,iVBORw0KGgo="), .null⟩ demoFs).1.body =
      .uploaded (js "1700000000000-4fzyo8.png") (js "/uploads/1700000000000-4fzyo8.png") ∧
    safeNameOf .null demoEnv (extOf (js "image/png")) =
      some (js "1700000000000" ++ js "-" ++ js "4fzyo8" ++ js "." ++ js "png") :=
  ⟨by decide,
   (generated_filename_shape demoDir demoEnv
      ⟨.string (js "data:image/png;base64,iVBORw0KGgo="), .null⟩ demoFs
      (js "data:image/png;base64,iVBORw0KGgo=") (js "png") (js "iVBORw0KGgo=") rfl
      (by decide) (Or.inl rfl)
      (Or.inr ⟨js "4fzyo82mvyr", by decide, by decide, rfl⟩)).2.2.2.2.1⟩

/-! ## Base names and the paths of the handlers -/

theorem basename_no_slash (p : JSString) : 47 ∉ basename p := by
  intro h
  unfold basename at h
  rw [List.mem_reverse] at h
  have := List.mem_takeWhile_imp h
  simp at this

theorem pathJoin_of_proper (dir : Path) (name : JSString) (h : IsProperName name) :
    pathJoin dir name = dir ++ [name] := by
  obtain ⟨h0, hs, h1, h2⟩ := h
  have hsplit : splitSlash name = [name] :=
    splitSlash_of_no_slash name (fun c hc hcs => hs (hcs ▸ hc))
  simp [pathJoin, hsplit, joinSeg, h0, h1, h2]

theorem deleteTarget_of_proper (dir : Path) (param : JSString)
    (h0 : basename param ≠ []) (h1 : basename param ≠ [46])
    (h2 : basename param ≠ [46, 46]) :
    deleteTarget dir param = dir ++ [basename param] ∧
      IsDirectChild dir (deleteTarget dir param) := by
  have hp : IsProperName (basename param) := ⟨h0, basename_no_slash param, h1, h2⟩
  have e := pathJoin_of_proper dir (basename param) hp
  exact ⟨e, basename param, hp, e⟩

theorem not_directChild_of_length (dir target : Path) (h : target.length ≠ dir.length + 1) :
    ¬ IsDirectChild dir target := by
  rintro ⟨name, -, e⟩
  apply h
  rw [e]
  simp

/-- C3 at the file name `..`: the base name of `..` is `..`, and the path the
delete handler checks and unlinks is `/srv/app`, the parent of the store
directory `/srv/app/uploads` and no child of it (the handler answers 500, the
`unlink` of a directory being refused); the upload handler given the
`filename` `..` writes to the same path.  The file name `../../etc/passwd` is
reduced to `passwd` inside the store and answered 404. -/
theorem dotdot_targets_parent_of_store :
    basename (js "..") = (js "..") ∧
    deleteTarget demoDir (js "..") = [(js "srv"), (js "app")] ∧
    ¬ IsDirectChild demoDir (deleteTarget demoDir (js "..")) ∧
    deletePhoto demoDir (js "..") demoFs =
      (⟨500, .error (js "Gagal menghapus file")⟩, demoFs) ∧
    safeNameOf (.string (js "..")) demoEnv (js "png") = some (js "..") ∧
    pathJoin demoDir (js "..") = [(js "srv"), (js "app")] ∧
    uploadBase64 demoDir demoEnv
        ⟨.string (js "data:image/png;base64,iVBORw0KGgo="), .string (js "..")⟩ demoFs =
      (uploadFailed, demoFs) ∧
    deleteTarget demoDir (js "../../etc/passwd") = demoDir ++ [(js "passwd")] ∧
    deletePhoto demoDir (js "../../etc/passwd") demoFs =
      (⟨404, .error (js "File not found")⟩, demoFs) :=
  ⟨by decide, by decide, not_directChild_of_length _ _ (by decide), by decide, by decide,
   by decide, by decide, by decide, by decide⟩

/-! ## `DELETE /api/photos/:filename` -/

/-- For a request whose base name is a proper name, the delete handler answers
404 and leaves the file system as it was when the store has no such entry, and
when the entry is a regular file whose unlink is not refused it answers 204
with an empty body, the file is gone and every other path is as before. -/
theorem deletePhoto_frame (dir : Path) (param : JSString) (fs : FS)
    (h0 : basename param ≠ []) (h1 : basename param ≠ [46])
    (h2 : basename param ≠ [46, 46]) :
    (fs.node (dir ++ [basename param]) = none →
      deletePhoto dir param fs = (⟨404, .error (js "File not found")⟩, fs)) ∧
    (∀ bytes t, fs.node (dir ++ [basename param]) = some (.file bytes t) →
      osPath (dir ++ [basename param]) ∉ fs.denied →
      (deletePhoto dir param fs).1 = ⟨204, .empty⟩ ∧
      (deletePhoto dir param fs).2.node (dir ++ [basename param]) = none ∧
      ∀ q, osPath q ≠ osPath (dir ++ [basename param]) →
        (deletePhoto dir param fs).2.node q = fs.node q) := by
  have e := (deleteTarget_of_proper dir param h0 h1 h2).1
  constructor
  · intro hn
    simp [deletePhoto, e, FS.existsSync, hn]
  · intro bytes t hn hd
    have hu := FS.unlink_of_file fs _ bytes t hn hd
    have hr : deletePhoto dir param fs =
        (⟨204, .empty⟩,
          { fs with nodes := fs.nodes.filter (fun x => x.1 != osPath (dir ++ [basename param])) }) := by
      simp [deletePhoto, e, FS.existsSync, hn, hu]
    rw [hr]
    exact ⟨rfl, (FS.node_unlink_self fs _ _ hu).1,
      fun q hq => FS.node_unlink_other fs _ _ q hu hq⟩

/-- C5 at the request `DELETE /api/photos/%2F`, whose parameter is `/`: the
base name is empty and the store lists no entry of that name, yet the handler
answers 500, not 404: the target is the store directory itself, which exists
and cannot be unlinked.  The same happens for the parameter `..`.  An absent
proper name is answered 404 and an existing file 204, the store losing that
file only. -/
theorem delete_of_slash_answers_500 :
    basename (js "/") = [] ∧
    demoFs.readdir demoDir = some [(js "a.png"), (js "b.png"), (js "c.png")] ∧
    deleteTarget demoDir (js "/") = demoDir ∧
    deletePhoto demoDir (js "/") demoFs =
      (⟨500, .error (js "Gagal menghapus file")⟩, demoFs) ∧
    (deletePhoto demoDir (js "..") demoFs).1.status = 500 ∧
    deletePhoto demoDir (js "nope.png") demoFs =
      (⟨404, .error (js "File not found")⟩, demoFs) ∧
    deletePhoto demoDir (js "b.png") demoFs = (⟨204, .empty⟩, vanishedFs) := by
  decide

/-! ## `GET /api/photos` -/

theorem statAll_isSome (dir : Path) (fsStat : FS) (files : List JSString)
    (h : ∀ f ∈ files, (fsStat.stat (pathJoin dir f)).isSome = true)
    (hu : ∀ f ∈ files, (photoUrl f).isSome = true) :
    ∃ entries, statAll dir fsStat files = some entries ∧
      entries.map (fun e => e.filename) = files ∧
      ∀ e ∈ entries, fsStat.stat (pathJoin dir e.filename) = some ⟨e.size, e.createdAt⟩ ∧
        photoUrl e.filename = some e.url := by
  induction files with
  | nil => exact ⟨[], rfl, rfl, by simp⟩
  | cons f rest ih =>
    obtain ⟨es, hes, hmap, hall⟩ :=
      ih (fun g hg => h g (by simp [hg])) (fun g hg => hu g (by simp [hg]))
    have hf := h f (by simp)
    have huf := hu f (by simp)
    cases hst : fsStat.stat (pathJoin dir f) with
    | none => rw [hst] at hf; exact absurd hf (by simp)
    | some st =>
      cases hurl : photoUrl f with
      | none => rw [hurl] at huf; exact absurd huf (by simp)
      | some url =>
        refine ⟨⟨f, url, st.size, st.birthtimeMs⟩ :: es, ?_, ?_, ?_⟩
        · simp [statAll, hst, hurl, hes]
        · simp [hmap]
        · intro e he
          rcases List.mem_cons.mp he with h1 | h1
          · subst h1; exact ⟨hst, hurl⟩
          · exact hall e h1

theorem statAll_eq_none (dir : Path) (fsStat : FS) (files : List JSString)
    (h : ∃ f ∈ files, fsStat.stat (pathJoin dir f) = none) :
    statAll dir fsStat files = none := by
  induction files with
  | nil => obtain ⟨f, hf, -⟩ := h; simp at hf
  | cons g rest ih =>
    obtain ⟨f, hf, hst⟩ := h
    rcases List.mem_cons.mp hf with h1 | h1
    · subst h1; simp [statAll, hst]
    · have := ih ⟨f, h1, hst⟩
      simp only [statAll, this]
      split <;> simp_all

theorem newestFirst_iff (a b : PhotoEntry) : newestFirst a b ↔ b.createdAt ≤ a.createdAt := by
  unfold newestFirst; omega

theorem sortNewestFirst_sorted (l : List PhotoEntry) :
    (sortNewestFirst l).Pairwise (fun a b => b.createdAt ≤ a.createdAt) := by
  haveI : IsTotal PhotoEntry newestFirst :=
    ⟨fun a b => by simp only [newestFirst_iff]; omega⟩
  haveI : IsTrans PhotoEntry newestFirst :=
    ⟨fun a b c h1 h2 => by simp only [newestFirst_iff] at *; omega⟩
  have h := List.sorted_insertionSort newestFirst l
  exact List.Pairwise.imp (fun {a b} hab => (newestFirst_iff a b).mp hab) h

theorem sortNewestFirst_perm (l : List PhotoEntry) : (sortNewestFirst l).Perm l :=
  List.perm_insertionSort newestFirst l

theorem sortNewestFirst_stable (l : List PhotoEntry) (t : Int) :
    (sortNewestFirst l).filter (fun e => e.createdAt = t) =
      l.filter (fun e => e.createdAt = t) := by
  have hpw : (l.filter (fun e => decide (e.createdAt = t))).Pairwise newestFirst := by
    apply List.Pairwise.imp_of_mem (R := fun _ _ => True) _ (List.pairwise_of_forall (fun _ _ => trivial))
    intro a b ha hb _
    simp only [List.mem_filter, decide_eq_true_eq] at ha hb
    rw [newestFirst_iff, ha.2, hb.2]
  have hsub : List.Sublist (l.filter (fun e => decide (e.createdAt = t))) (sortNewestFirst l) :=
    List.sublist_insertionSort hpw (List.filter_sublist l)
  have hsub2 := hsub.filter (fun e => decide (e.createdAt = t))
  rw [List.filter_filter] at hsub2
  simp only [Bool.and_self] at hsub2
  have hlen : ((sortNewestFirst l).filter (fun e => decide (e.createdAt = t))).length =
      (l.filter (fun e => decide (e.createdAt = t))).length :=
    ((sortNewestFirst_perm l).filter _).length_eq
  exact (hsub2.eq_of_length hlen.symm).symm

/-- C4: when every enumerated entry of the store directory can be stat-ed,
`GET /api/photos` answers 200 with one entry per enumerated name (the file
names of the answer are a permutation of the enumeration, the other fields
are those `stat` reports), ordered by `createdAt` non-increasing, so that a
newer photo precedes an older one; entries with the same `createdAt` keep
their enumeration order; an empty store is answered `[]`. -/
theorem listing_is_sorted_permutation (dir : Path) (fs fsStat : FS) (files : List JSString)
    (hread : fs.readdir dir = some files)
    (hstat : ∀ f ∈ files, (fsStat.stat (pathJoin dir f)).isSome = true) :
    ∃ entries list, statAll dir fsStat files = some entries ∧
      getPhotos dir fs fsStat = ⟨200, .photos list⟩ ∧
      entries.map (fun e => e.filename) = files ∧
      list.Perm entries ∧
      (list.map (fun e => e.filename)).Perm files ∧
      (∀ e ∈ list, fsStat.stat (pathJoin dir e.filename) = some ⟨e.size, e.createdAt⟩ ∧
        photoUrl e.filename = some e.url) ∧
      list.Pairwise (fun a b => b.createdAt ≤ a.createdAt) ∧
      (∀ t : Int, list.filter (fun e => e.createdAt = t) =
        entries.filter (fun e => e.createdAt = t)) ∧
      (files = [] → list = []) := by
  obtain ⟨entries, hes, hmap, hall⟩ :=
    statAll_isSome dir fsStat files hstat (readdir_names_encodable fs dir files hread)
  refine ⟨entries, sortNewestFirst entries, hes, ?_, hmap, sortNewestFirst_perm entries, ?_, ?_,
    sortNewestFirst_sorted entries, sortNewestFirst_stable entries, ?_⟩
  · simp [getPhotos, hread, hes]
  · rw [← hmap]; exact (sortNewestFirst_perm entries).map _
  · intro e he
    exact hall e ((sortNewestFirst_perm entries).mem_iff.mp he)
  · intro hnil
    subst hnil
    have : entries = [] := by simpa using hmap
    subst this
    rfl

/-- C4 on a store of three photos, `a.png` and `c.png` created at time 10 and
`b.png` at time 20: the newer `b.png` comes first and the two others keep
their enumeration order; the empty store is answered `[]`. -/
theorem listing_is_sorted_permutation_witness :
    demoFs.readdir demoDir = some [(js "a.png"), (js "b.png"), (js "c.png")] ∧
    getPhotos demoDir demoFs demoFs = ⟨200, .photos
      [⟨(js "b.png"), (js "/uploads/b.png"), 2, 20⟩,
       ⟨(js "a.png"), (js "/uploads/a.png"), 3, 10⟩,
       ⟨(js "c.png"), (js "/uploads/c.png"), 1, 10⟩]⟩ ∧
    getPhotos demoDir emptyStoreFs emptyStoreFs = ⟨200, .photos []⟩ ∧
    ∃ entries list, statAll demoDir demoFs [(js "a.png"), (js "b.png"), (js "c.png")] =
        some entries ∧
      getPhotos demoDir demoFs demoFs = ⟨200, .photos list⟩ ∧
      list.Pairwise (fun a b => b.createdAt ≤ a.createdAt) :=
  ⟨by decide, by decide, by decide,
   (listing_is_sorted_permutation demoDir demoFs demoFs
      [(js "a.png"), (js "b.png"), (js "c.png")] (by decide) (by decide)).imp
     (fun _ h => h.imp (fun _ h2 => ⟨h2.1, h2.2.1, h2.2.2.2.2.2.2.1⟩))⟩

/-- C6, as stated, fails: `b.png` is enumerated and is gone when it is
stat-ed; the listing does not omit it, the whole request is answered 500 with
an `error` field. -/
theorem vanished_file_fails_listing :
    demoFs.readdir demoDir = some [(js "a.png"), (js "b.png"), (js "c.png")] ∧
    vanishedFs.stat (pathJoin demoDir (js "a.png")) = some ⟨3, 10⟩ ∧
    vanishedFs.stat (pathJoin demoDir (js "b.png")) = none ∧
    getPhotos demoDir demoFs vanishedFs =
      ⟨500, .error (js "Gagal membaca folder uploads")⟩ := by
  decide

/-- C6 amended: when some enumerated file can no longer be stat-ed, the
rejection of its `stat` rejects the whole `Promise.all`, and `GET /api/photos`
answers 500 with an `error` field and no entries. -/
theorem listing_fails_when_stat_fails (dir : Path) (fs fsStat : FS) (files : List JSString)
    (hread : fs.readdir dir = some files)
    (hgone : ∃ f ∈ files, fsStat.stat (pathJoin dir f) = none) :
    getPhotos dir fs fsStat = ⟨500, .error (js "Gagal membaca folder uploads")⟩ := by
  simp [getPhotos, hread, statAll_eq_none dir fsStat files hgone]

/-- C6 amended, on a store whose three photos are all gone when they are
stat-ed: the answer is 500. -/
theorem listing_fails_when_stat_fails_witness :
    demoFs.readdir demoDir = some [(js "a.png"), (js "b.png"), (js "c.png")] ∧
    emptyStoreFs.stat (pathJoin demoDir (js "c.png")) = none ∧
    getPhotos demoDir demoFs emptyStoreFs =
      ⟨500, .error (js "Gagal membaca folder uploads")⟩ :=
  ⟨by decide, by decide,
   listing_fails_when_stat_fails demoDir demoFs emptyStoreFs
     [(js "a.png"), (js "b.png"), (js "c.png")] (by decide)
     ⟨(js "c.png"), by decide, by decide⟩⟩

/-! ## The busy guard of the capture button -/

namespace Client

theorem guard_finish (c : Client) : GuardMatchesCapture (finish c) := rfl

theorem guard_snapshotAndUpload (c : Client) (h : c.captureDisabled = true) :
    GuardMatchesCapture (snapshotAndUpload c) := by
  by_cases hctx : c.contextAvailable = true
  · simp [snapshotAndUpload, hctx, GuardMatchesCapture, h]
  · simp [snapshotAndUpload, hctx, GuardMatchesCapture, finish]

theorem guard_afterCamera (c : Client) (h : c.captureDisabled = true) :
    GuardMatchesCapture (afterCamera c) := by
  unfold afterCamera
  split
  · simp [GuardMatchesCapture, h]
  · exact guard_snapshotAndUpload c h

theorem guard_startRefresh (c : Client) (h : c.captureDisabled = true) :
    GuardMatchesCapture (startRefresh c) := by
  unfold startRefresh
  split
  · simp [GuardMatchesCapture, h]
  · exact guard_finish c

theorem guard_startCameraDetached (c : Client) (h : GuardMatchesCapture c) :
    GuardMatchesCapture (startCameraDetached c) := by
  unfold startCameraDetached
  split
  · exact h
  · exact h

theorem disabled_of_inflight (c : Client) (h : GuardMatchesCapture c) (st : Stage)
    (hc : c.capture = some st) : c.captureDisabled = true := by
  unfold GuardMatchesCapture at h
  rw [h, hc]; rfl

theorem step_preserves_guard (c : Client) (e : Event) (h : GuardMatchesCapture c) :
    GuardMatchesCapture (step c e) := by
  cases e with
  | clickCapture =>
    simp only [step]
    split
    · exact h
    · split
      · exact guard_afterCamera _ rfl
      · rfl
  | getUserMediaSettled granted =>
    simp only [step]
    split
    · rename_i hc
      have hd := disabled_of_inflight c h _ hc
      split
      · simp [GuardMatchesCapture, hd]
      · exact guard_afterCamera _ hd
    · exact h
  | playSettled ok =>
    simp only [step]
    split
    · rename_i hc
      have hd := disabled_of_inflight c h _ hc
      split
      · exact guard_afterCamera _ hd
      · exact guard_afterCamera _ hd
    · exact h
  | tick =>
    simp only [step]
    split
    · rename_i cur hc
      have hd := disabled_of_inflight c h _ hc
      split
      · exact guard_snapshotAndUpload _ hd
      · simp [GuardMatchesCapture, hd]
    · exact h
  | uploadSettled o =>
    simp only [step]
    split
    · rename_i hc
      have hd := disabled_of_inflight c h _ hc
      split
      · exact guard_startRefresh _ hd
      · exact guard_startRefresh _ hd
    · exact h
  | refreshSettled ok =>
    simp only [step]
    split
    · exact guard_finish _
    · exact h
  | clickStart =>
    simp only [step]
    split
    · exact h
    · exact guard_startCameraDetached c h
  | otherStartSettled granted =>
    simp only [step]
    split
    · exact h
    · split
      · exact h
      · exact h
  | flipChange checked =>
    simp only [step]
    split
    · exact h
    · exact h
  | flipTimer =>
    simp only [step]
    split
    · exact h
    · exact guard_startCameraDetached _ h
  | setTimer checked => exact h
  | videoResized w h1 => exact h

theorem run_preserves_guard (events : List Event) :
    ∀ c : Client, GuardMatchesCapture c → GuardMatchesCapture (run c events) := by
  induction events with
  | nil => intro c h; exact h
  | cons e es ih =>
    intro c h
    exact ih (step c e) (step_preserves_guard c e h)

/-! ### Completion of a capture -/

theorem released_zero (o : Outcomes) (bound : Nat) (c : Client)
    (h1 : c.captureDisabled = false) (h2 : c.capture = none) : ReleasedWithin o bound c :=
  ⟨0, Nat.zero_le _, h1, h2, fun k hk => absurd hk (Nat.not_lt_zero k)⟩

theorem released_mono (o : Outcomes) (b1 b2 : Nat) (c : Client) (hb : b1 ≤ b2)
    (h : ReleasedWithin o b1 c) : ReleasedWithin o b2 c := by
  obtain ⟨n, hn, h1, h2, h3⟩ := h
  exact ⟨n, Nat.le_trans hn hb, h1, h2, h3⟩

theorem released_succ (o : Outcomes) (bound : Nat) (c : Client) (st : Stage)
    (hc : c.capture = some st) (hd : c.captureDisabled = true)
    (h : ReleasedWithin o bound (step c (settleEvent o st))) :
    ReleasedWithin o (bound + 1) c := by
  obtain ⟨n, hn, h1, h2, h3⟩ := h
  have hs : settle o c = step c (settleEvent o st) := by simp [settle, hc]
  refine ⟨n + 1, Nat.succ_le_succ hn, ?_, ?_, ?_⟩
  · simp only [settleN, hs]; exact h1
  · simp only [settleN, hs]; exact h2
  · intro k hk
    cases k with
    | zero => exact hd
    | succ k =>
      simp only [settleN, hs]
      exact h3 k (Nat.lt_of_succ_lt_succ hk)

theorem released_finish (o : Outcomes) (bound : Nat) (c : Client) :
    ReleasedWithin o bound (finish c) :=
  released_zero o bound _ rfl rfl

theorem released_startRefresh (o : Outcomes) (c : Client) (hd : c.captureDisabled = true) :
    ReleasedWithin o 1 (startRefresh c) := by
  unfold startRefresh
  split
  · refine released_succ o 0 _ .awaitRefresh rfl hd ?_
    simp only [settleEvent, step]
    exact released_finish o 0 _
  · exact released_finish o 1 c

theorem released_snapshotAndUpload (o : Outcomes) (c : Client)
    (hd : c.captureDisabled = true) : ReleasedWithin o 2 (snapshotAndUpload c) := by
  by_cases hctx : c.contextAvailable = true
  · simp only [snapshotAndUpload, hctx, if_true]
    refine released_succ o 1 _ .awaitUpload rfl hd ?_
    simp only [settleEvent, step]
    split
    · exact released_startRefresh o _ hd
    · exact released_startRefresh o _ hd
  · simp only [snapshotAndUpload, hctx]
    exact released_finish o 2 c

theorem released_countdown (o : Outcomes) (cur : Nat) :
    ∀ c : Client, c.capture = some (.countdown cur) → c.captureDisabled = true →
      ReleasedWithin o (cur + 3) c := by
  induction cur with
  | zero =>
    intro c hc hd
    refine released_succ o 2 c _ hc hd ?_
    simp only [settleEvent, step, hc]
    exact released_snapshotAndUpload o _ hd
  | succ k ih =>
    intro c hc hd
    refine released_succ o (k + 3) c _ hc hd ?_
    simp only [settleEvent, step, hc]
    split
    · exact released_mono o 2 _ _ (by omega) (released_snapshotAndUpload o _ hd)
    · exact ih _ rfl hd

theorem released_afterCamera (o : Outcomes) (c : Client) (hd : c.captureDisabled = true) :
    ReleasedWithin o 6 (afterCamera c) := by
  unfold afterCamera
  split
  · exact released_countdown o 3 _ rfl hd
  · exact released_mono o 2 6 _ (by omega) (released_snapshotAndUpload o c hd)

theorem released_of_guard (o : Outcomes) (c : Client) (h : GuardMatchesCapture c) :
    ReleasedWithin o (settleBound c) c := by
  cases hc : c.capture with
  | none =>
    have hd : c.captureDisabled = false := by
      unfold GuardMatchesCapture at h; rw [h, hc]; rfl
    exact released_zero o _ c hd hc
  | some st =>
    have hd := disabled_of_inflight c h st hc
    cases st with
    | awaitGetUserMedia =>
      simp only [settleBound, hc]
      refine released_succ o 7 c _ hc hd ?_
      simp only [settleEvent, step, hc]
      split
      · refine released_succ o 6 _ .awaitPlay rfl hd ?_
        simp only [settleEvent, step]
        split
        · exact released_afterCamera o _ hd
        · exact released_afterCamera o _ hd
      · exact released_mono o 6 7 _ (by omega) (released_afterCamera o _ hd)
    | awaitPlay =>
      simp only [settleBound, hc]
      refine released_succ o 7 c _ hc hd ?_
      simp only [settleEvent, step, hc]
      split
      · exact released_mono o 6 7 _ (by omega) (released_afterCamera o _ hd)
      · exact released_mono o 6 7 _ (by omega) (released_afterCamera o _ hd)
    | countdown cur =>
      simp only [settleBound, hc]
      exact released_mono o (cur + 3) _ c (by omega) (released_countdown o cur c hc hd)
    | awaitUpload =>
      simp only [settleBound, hc]
      refine released_succ o 7 c _ hc hd ?_
      simp only [settleEvent, step, hc]
      split
      · exact released_mono o 1 7 _ (by omega) (released_startRefresh o _ hd)
      · exact released_mono o 1 7 _ (by omega) (released_startRefresh o _ hd)
    | awaitRefresh =>
      simp only [settleBound, hc]
      refine released_succ o 7 c _ hc hd ?_
      simp only [settleEvent, step, hc]
      exact released_finish o 7 _

theorem released_after_click (o : Outcomes) (c : Client) (hd : c.captureDisabled = false) :
    ReleasedWithin o 8 (step c .clickCapture) := by
  by_cases hs : c.stream = true
  · have e : step c .clickCapture = afterCamera { c with captureDisabled := true } := by
      simp [step, hd, hs]
    rw [e]
    exact released_mono o 6 8 _ (by omega) (released_afterCamera o _ rfl)
  · have e : step c .clickCapture =
        { c with captureDisabled := true, log := c.log ++ [.getUserMedia c.facing],
                 capture := some .awaitGetUserMedia } := by
      simp [step, hd, hs]
    rw [e]
    exact released_of_guard o
      { c with captureDisabled := true, log := c.log ++ [.getUserMedia c.facing],
               capture := some .awaitGetUserMedia }
      (show (true : Bool) = (some Stage.awaitGetUserMedia).isSome from rfl)

theorem click_starts_capture (c : Client) (hd : c.captureDisabled = false) :
    ((step c .clickCapture).captureDisabled = true ∧
        (step c .clickCapture).capture.isSome = true) ∨
      (c.stream = true ∧ c.timerChecked = false ∧ c.contextAvailable = false ∧
        (step c .clickCapture).captureDisabled = false) := by
  simp only [step, hd]
  by_cases hs : c.stream = true
  · by_cases ht : c.timerChecked = true
    · left; simp [hs, afterCamera, ht]
    · by_cases hx : c.contextAvailable = true
      · left; simp [hs, afterCamera, ht, snapshotAndUpload, hx]
      · right
        simp only [Bool.not_eq_true] at ht hx
        simp [hs, afterCamera, ht, snapshotAndUpload, hx, finish]
  · left; simp [hs]

theorem other_handlers_leave_capture (c : Client) (e : Event) (he : fromOtherHandler e = true) :
    (step c e).captureDisabled = c.captureDisabled ∧ (step c e).capture = c.capture := by
  cases e with
  | clickStart =>
    simp only [step]
    split
    · exact ⟨rfl, rfl⟩
    · unfold startCameraDetached
      split <;> exact ⟨rfl, rfl⟩
  | otherStartSettled granted =>
    simp only [step]
    split
    · exact ⟨rfl, rfl⟩
    · split <;> exact ⟨rfl, rfl⟩
  | flipChange checked =>
    simp only [step]
    split <;> exact ⟨rfl, rfl⟩
  | flipTimer =>
    simp only [step]
    split
    · exact ⟨rfl, rfl⟩
    · unfold startCameraDetached
      split <;> exact ⟨rfl, rfl⟩
  | setTimer checked => exact ⟨rfl, rfl⟩
  | videoResized w h => exact ⟨rfl, rfl⟩
  | clickCapture => simp [fromOtherHandler] at he
  | getUserMediaSettled g => simp [fromOtherHandler] at he
  | playSettled ok => simp [fromOtherHandler] at he
  | tick => simp [fromOtherHandler] at he
  | uploadSettled o => simp [fromOtherHandler] at he
  | refreshSettled ok => simp [fromOtherHandler] at he

/-- C9: on a page whose capture button is enabled exactly when no capture is
in flight (as after loading): (1) whatever the user does and however the
camera start, the countdown, the upload and the gallery refresh end, the
button is disabled in every state in which a capture is in flight and enabled
in every other; (2) a click on the enabled button disables it and puts a
capture in flight, unless `doCapture` rejects at once; (3) whatever the
outcomes, success or failure, of what the capture awaits, once these have
settled (at most eight settlings after the click) the capture has completed
and the button is enabled again, having been disabled at every moment before;
the same holds from every state with a capture in flight; (4) the events of
the other handlers change neither the button nor the capture, and a click on
the disabled button does nothing. -/
theorem busy_guard_tracks_capture (c : Client) (h : GuardMatchesCapture c) :
    (∀ events : List Event,
      ((run c events).capture.isSome = true → (run c events).captureDisabled = true) ∧
      ((run c events).capture = none → (run c events).captureDisabled = false)) ∧
    (c.captureDisabled = false →
      ((step c .clickCapture).captureDisabled = true ∧
          (step c .clickCapture).capture.isSome = true) ∨
        (c.stream = true ∧ c.timerChecked = false ∧ c.contextAvailable = false ∧
          (step c .clickCapture).captureDisabled = false)) ∧
    (∀ o : Outcomes, c.captureDisabled = false →
      ∃ n, n ≤ 8 ∧ (settleN o n (step c .clickCapture)).captureDisabled = false ∧
        (settleN o n (step c .clickCapture)).capture = none ∧
        ∀ k, k < n → (settleN o k (step c .clickCapture)).captureDisabled = true) ∧
    (∀ o : Outcomes,
      ∃ n, n ≤ settleBound c ∧ (settleN o n c).captureDisabled = false ∧
        (settleN o n c).capture = none ∧
        ∀ k, k < n → (settleN o k c).captureDisabled = true) ∧
    (∀ e : Event, fromOtherHandler e = true →
      (step c e).captureDisabled = c.captureDisabled ∧ (step c e).capture = c.capture) ∧
    (c.captureDisabled = true → step c .clickCapture = c) := by
  refine ⟨?_, click_starts_capture c, fun o hd => released_after_click o c hd,
    fun o => released_of_guard o c h, other_handlers_leave_capture c, ?_⟩
  · intro events
    have hg : (run c events).captureDisabled = (run c events).capture.isSome :=
      run_preserves_guard events c h
    constructor
    · intro h1; rw [hg, h1]
    · intro h1; rw [hg, h1]; rfl
  · intro hd
    simp [step, hd]

/-- C9 on a capture with countdown whose camera start, upload and gallery
refresh all fail: the click disables the button, it is still disabled after
each of the first five settlings, and the sixth (the failed refresh) completes
the capture and enables it; in event terms, the button is disabled after the
click and up to the failed upload, and enabled after the failed refresh. -/
theorem busy_guard_tracks_capture_witness :
    GuardMatchesCapture (loaded true true) ∧
    (∃ n, n ≤ 8 ∧
      (settleN allFail n (step (loaded true true) .clickCapture)).captureDisabled = false ∧
      (settleN allFail n (step (loaded true true) .clickCapture)).capture = none ∧
      ∀ k, k < n →
        (settleN allFail k (step (loaded true true) .clickCapture)).captureDisabled = true) ∧
    (step (loaded true true) .clickCapture).captureDisabled = true ∧
    (∀ k, k < 6 →
      (settleN allFail k (step (loaded true true) .clickCapture)).captureDisabled = true) ∧
    (settleN allFail 6 (step (loaded true true) .clickCapture)).captureDisabled = false ∧
    settleN allFail 6 (step (loaded true true) .clickCapture) =
      run (loaded true true) [.clickCapture, .getUserMediaSettled false, .tick, .tick, .tick,
        .uploadSettled (.networkError (js "Failed to fetch")), .refreshSettled false] ∧
    (run (loaded true true) [.clickCapture, .getUserMediaSettled false, .tick, .tick, .tick,
        .uploadSettled (.networkError (js "Failed to fetch"))]).captureDisabled = true ∧
    (run (loaded true true) [.clickCapture, .getUserMediaSettled false, .tick, .tick, .tick,
        .uploadSettled (.networkError (js "Failed to fetch")),
        .refreshSettled false]).captureDisabled = false :=
  ⟨by decide,
   (busy_guard_tracks_capture (loaded true true) (by decide)).2.2.1 allFail (by decide),
   by decide, by decide, by decide, by decide, by decide, by decide⟩

/-- C10 when the camera cannot be started: the capture begun with the camera
off requests the camera and waits; when `getUserMedia` is refused the page
alerts and the camera stays off, and the same capture goes on to draw the
frame on a 1280 x 720 canvas and to post the data URL to the upload route. -/
theorem capture_uploads_after_camera_failure :
    (run (loaded false true) [.clickCapture]).capture = some .awaitGetUserMedia ∧
    (run (loaded false true) [.clickCapture]).log = [.getUserMedia .user] ∧
    (run (loaded false true) [.clickCapture, .getUserMediaSettled false]).stream = false ∧
    (run (loaded false true) [.clickCapture, .getUserMediaSettled false]).log =
      [.getUserMedia .user, .alert cameraAlert, .snapshot 1280 720 false, .postUpload] ∧
    (run (loaded false true) [.clickCapture, .getUserMediaSettled false]).capture =
      some .awaitUpload := by
  decide

end Client

end PhotoBooth
